import Mathlib

/-!
# Custom screens and layout registry of `radio/src/gui/colorlcd/layout.cpp`

A shallow embedding of the layout factory registry, the custom screen slot
array and `Layout::decorate`, followed by the properties proved about them.

Conventions of the embedding.

* A byte is a `Nat`; a `const char *` is the list of bytes found at the
  pointer.  A C string ends at its first `0` byte; the end of the list also
  counts as a terminator.
* A non-null `Layout *` is a `LayoutPtr`; a nullable one is `Option LayoutPtr`.
  A nullable `const LayoutFactory *` is `Option LayoutFactory`.
* The constants `MAX_CUSTOM_SCREENS`, `sizeof(CustomScreenData::LayoutId)` and
  `sizeof(Layout::PersistentData)` are declared outside `layout.cpp`; they are
  the fields of `Config`.
* Calls into collaborators (factories, windows, `ViewMain`) are recorded, in
  program order, in a list of `Effect`s.
* `TRACE` output is not part of the model.
-/

namespace EdgeTX

/-! ## Bytes, C strings and the C library routines used by the source -/

/-- Content of the C string found at a pointer: the bytes before the first `0`. -/
def cstr : List Nat → List Nat
  | [] => []
  | c :: cs => if c = 0 then [] else c :: cstr cs

/-- C library `strcmp`: walks both strings until they differ or both end. -/
def strcmp : List Nat → List Nat → Int
  | [], [] => 0
  | [], b :: _ => if b = 0 then 0 else 0 - (b : Int)
  | a :: _, [] => if a = 0 then 0 else (a : Int)
  | a :: as, b :: bs =>
    if a = b then (if a = 0 then 0 else strcmp as bs) else (a : Int) - (b : Int)

/-- The `n` bytes that `strncpy(dst, src, n)` writes at `dst`: bytes of `src`
up to its terminator, then `0` bytes until `n` bytes are written. -/
def strncpy : List Nat → Nat → List Nat
  | _, 0 => []
  | [], n + 1 => 0 :: strncpy [] n
  | c :: cs, n + 1 => if c = 0 then 0 :: strncpy [] n else c :: strncpy cs n

/-- The bytes that `strcpy(dst, src)` writes at `dst`: the string and its
terminator, however long it is. -/
def strcpy (src : List Nat) : List Nat :=
  cstr src ++ [0]

/-- Writes `bytes` over the beginning of the buffer `dst`; bytes that do not
fit in `dst` are not written here. -/
def overwrite (dst bytes : List Nat) : List Nat :=
  bytes.take dst.length ++ dst.drop bytes.length

/-- C library `memmove` on an array of elements, lengths counted in elements:
the `n` elements at index `src` are read, then written at index `dst`. -/
def memmove {α : Type} (mem : List α) (dst src n : Nat) : List α :=
  let tmp := (mem.drop src).take n
  mem.take dst ++ tmp ++ mem.drop (dst + tmp.length)

/-- Subtraction of `unsigned` (32 bit) values. -/
def usub (a b : Nat) : Nat :=
  (a % 4294967296 + 4294967296 - b % 4294967296) % 4294967296

/-! ## Data model -/

/-- The constants of the build that `layout.cpp` uses but does not declare. -/
structure Config where
  /-- Number of custom screen slots. -/
  MAX_CUSTOM_SCREENS : Nat
  /-- Value of `sizeof(CustomScreenData::LayoutId)`. -/
  LAYOUT_ID_LEN : Nat
  /-- Value of `sizeof(Layout::PersistentData)`. -/
  PERSISTENT_DATA_LEN : Nat
  deriving DecidableEq, Repr

/-- A non-null `Layout *`, identified by the address of the object. -/
structure LayoutPtr where
  addr : Nat
  deriving DecidableEq, Repr

/-- One record of `g_model.screenData`: the identifier field followed by the
configuration block. -/
structure CustomScreenData where
  LayoutId : List Nat
  layoutData : List Nat
  deriving DecidableEq, Repr

instance : Inhabited CustomScreenData := ⟨⟨[], []⟩⟩

/-- A layout factory: `getId()`, `create(PersistentData *)` and
`load(PersistentData *)`.  The two constructors receive the configuration
block they are pointed at and give back the screen (or `nullptr`) together
with the block as they leave it. -/
structure LayoutFactory where
  getId : List Nat
  create : List Nat → Option LayoutPtr × List Nat
  load : List Nat → Option LayoutPtr × List Nat

/-- Calls made into collaborators, in the order the program makes them. -/
inductive Effect where
  /-- Call `factory->create(&layoutData)`: factory identifier, block passed, screen returned. -/
  | create (factoryId : List Nat) (data : List Nat) (result : Option LayoutPtr)
  /-- Call `factory->load(persistentData)`: factory identifier, block passed, screen returned. -/
  | load (factoryId : List Nat) (data : List Nat) (result : Option LayoutPtr)
  /-- Call `screen->deleteLater(detach, trash)`. -/
  | deleteLater (screen : LayoutPtr) (detach trash : Bool)
  /-- Expression `delete screen`. -/
  | delete (screen : LayoutPtr)
  /-- Call `screen->attach(ViewMain::instance())`. -/
  | attach (screen : LayoutPtr)
  deriving DecidableEq, Repr

/-- The globals `customScreens` and `g_model.screenData`, and the calls made so far. -/
structure State where
  customScreens : List (Option LayoutPtr)
  screenData : List CustomScreenData
  trace : List Effect
  deriving DecidableEq, Repr

/-- Both arrays have `MAX_CUSTOM_SCREENS` elements. -/
def State.WF (cfg : Config) (s : State) : Prop :=
  s.customScreens.length = cfg.MAX_CUSTOM_SCREENS ∧
  s.screenData.length = cfg.MAX_CUSTOM_SCREENS

instance (cfg : Config) (s : State) : Decidable (s.WF cfg) := by
  unfold State.WF; infer_instance

/-- Result of `memset(&record, 0, sizeof(CustomScreenData))`. -/
def zeroRecord (cfg : Config) : CustomScreenData :=
  ⟨List.replicate cfg.LAYOUT_ID_LEN 0, List.replicate cfg.PERSISTENT_DATA_LEN 0⟩

/-- Bytes of the record array from the start of record `i` on, as seen through
the pointer `g_model.screenData[i].LayoutId`.  The memory that follows the
array is not part of the model: a string read here is the one the program
reads when a `0` byte lies between the start of record `i` and the end of the
array. -/
def bytesFrom (recs : List CustomScreenData) (i : Nat) : List Nat :=
  ((recs.drop i).map (fun r => r.LayoutId ++ r.layoutData)).foldr (fun a b => a ++ b) []

/-- Writes `bytes` into the record array starting at the first byte of the
first record: identifier field first, then the configuration block, then the
next record.  Bytes past the end of the array are outside the model. -/
def writeRecords : List CustomScreenData → List Nat → List CustomScreenData
  | [], _ => []
  | r :: rs, bytes =>
    ⟨overwrite r.LayoutId bytes, overwrite r.layoutData (bytes.drop r.LayoutId.length)⟩ ::
      writeRecords rs (bytes.drop (r.LayoutId.length + r.layoutData.length))

/-! ## Layout factory registry -/

/-- Function `registerLayout`: `push_back` on the list of registered layouts. -/
def registerLayout (layouts : List LayoutFactory) (factory : LayoutFactory) :
    List LayoutFactory :=
  layouts ++ [factory]

/-- The registry after `registerLayout` was called for each factory of `fs` in turn. -/
def registered (fs : List LayoutFactory) : List LayoutFactory :=
  fs.foldl registerLayout []

/-- Function `getLayoutFactory`: the loop over the registered layouts. -/
def getLayoutFactory : List LayoutFactory → List Nat → Option LayoutFactory
  | [], _ => none
  | f :: rest, name =>
    if strcmp name f.getId = 0 then some f else getLayoutFactory rest name

/-- Function `loadLayout`: the screen (not attached), the configuration block
as the factory left it, and the calls made. -/
def loadLayout (layouts : List LayoutFactory) (name : List Nat) (persistentData : List Nat) :
    Option LayoutPtr × List Nat × List Effect :=
  match getLayoutFactory layouts name with
  | some factory =>
    let r := factory.load persistentData
    (r.1, r.2, [Effect.load factory.getId persistentData r.1])
  | none => (none, persistentData, [])

/-! ## Custom screen slots -/

/-- Body of the loop of `deleteCustomScreens` over the slots. -/
def deleteScreensLoop : List (Option LayoutPtr) → List (Option LayoutPtr) × List Effect
  | [] => ([], [])
  | none :: rest =>
    let r := deleteScreensLoop rest
    (none :: r.1, r.2)
  | some screen :: rest =>
    let r := deleteScreensLoop rest
    (none :: r.1, Effect.deleteLater screen true true :: r.2)

/-- Function `deleteCustomScreens`.  The call `deleteLater()` uses the default
arguments of the window library, `detach = true, trash = true`. -/
def deleteCustomScreens (s : State) : State :=
  let r := deleteScreensLoop s.customScreens
  { s with customScreens := r.1, trace := s.trace ++ r.2 }

/-- Function `loadDefaultLayout`; `defaultLayout` is the global of that name. -/
def loadDefaultLayout (defaultLayout : Option LayoutFactory) (s : State) : State :=
  match s.customScreens.getD 0 none, defaultLayout with
  | none, some factory =>
    let data1 := writeRecords s.screenData (strcpy factory.getId)
    let block := (data1.getD 0 default).layoutData
    let r := factory.create block
    let data2 := data1.set 0 { data1.getD 0 default with layoutData := r.2 }
    let created := Effect.create factory.getId block r.1
    let attached := match r.1 with
      | some screen => [Effect.attach screen]
      | none => []
    { customScreens := s.customScreens.set 0 r.1
      screenData := data2
      trace := s.trace ++ [created] ++ attached }
  | _, _ => s

/-- Loop of `loadCustomScreens`, from slot `i`, for `fuel` more slots. -/
def loadScreensLoop (layouts : List LayoutFactory) : Nat → Nat → State → State
  | 0, _, s => s
  | fuel + 1, i, s =>
    let r := loadLayout layouts (bytesFrom s.screenData i) (s.screenData.getD i default).layoutData
    let data := s.screenData.set i { s.screenData.getD i default with layoutData := r.2.1 }
    let attached := match r.1 with
      | some screen => [Effect.attach screen]
      | none => []
    loadScreensLoop layouts fuel (i + 1)
      { customScreens := s.customScreens.set i r.1
        screenData := data
        trace := s.trace ++ r.2.2 ++ attached }

/-- Function `loadCustomScreens`. -/
def loadCustomScreens (cfg : Config) (layouts : List LayoutFactory) (s : State) : State :=
  loadScreensLoop layouts cfg.MAX_CUSTOM_SCREENS 0 s

/-- Function `createCustomScreen`: the returned pointer and the state after. -/
def createCustomScreen (cfg : Config) (factory : Option LayoutFactory)
    (customScreenIndex : Nat) (s : State) : Option LayoutPtr × State :=
  match factory with
  | none => (none, s)
  | some factory =>
    if customScreenIndex ≥ cfg.MAX_CUSTOM_SCREENS then (none, s)
    else
      let torn := match s.customScreens.getD customScreenIndex none with
        | some old => [Effect.deleteLater old true false, Effect.delete old]
        | none => []
      let record := s.screenData.getD customScreenIndex default
      let r := factory.create record.layoutData
      let created := Effect.create factory.getId record.layoutData r.1
      let screens := s.customScreens.set customScreenIndex r.1
      match r.1 with
      | some screen =>
        (some screen,
          { customScreens := screens
            screenData := s.screenData.set customScreenIndex
              ⟨strncpy factory.getId cfg.LAYOUT_ID_LEN, r.2⟩
            trace := s.trace ++ torn ++ [created] })
      | none =>
        (none,
          { customScreens := screens
            screenData := s.screenData.set customScreenIndex { record with layoutData := r.2 }
            trace := s.trace ++ torn ++ [created] })

/-- Function `disposeCustomScreen`.  Pointers into `g_model.screenData` count
records, and both lengths passed to the C library are multiples of
`sizeof(CustomScreenData)`, so the block move and the fill are taken record
by record. -/
def disposeCustomScreen (cfg : Config) (idx : Nat) (s : State) : State :=
  if idx ≥ cfg.MAX_CUSTOM_SCREENS then s
  else
    let dst := idx
    let src := dst + 1
    let len := usub (usub cfg.MAX_CUSTOM_SCREENS idx) 1
    let moved := memmove s.screenData dst src len
    { s with screenData := moved.set (cfg.MAX_CUSTOM_SCREENS - 1) (zeroRecord cfg) }

/-! ## Decoration -/

/-- Members of a `Layout` object that `decorate` reads or writes: the answers
of the four capability queries and the cached `decorationSettings` (`uint8_t`). -/
structure Layout where
  hasTopbar : Bool
  hasSliders : Bool
  hasTrims : Bool
  hasFlightMode : Bool
  decorationSettings : Nat
  deriving DecidableEq, Repr

/-- Calls made by `Layout::decorate`, on `ViewMain::instance()` and on the layout. -/
inductive DecorationCall where
  | setTopbarVisible (visible : Bool)
  | setSlidersVisible (visible : Bool)
  | setTrimsVisible (visible : Bool)
  | setFlightModeVisible (visible : Bool)
  | adjustDecoration
  | updateZones
  | invalidate
  deriving DecidableEq, Repr

/-- Value of `checkSettings` in `Layout::decorate`. -/
def checkSettings (l : Layout) : Nat :=
  ((if l.hasTopbar then 1 <<< 0 else 0) |||
   (if l.hasSliders then 1 <<< 1 else 0) |||
   (if l.hasTrims then 1 <<< 2 else 0) |||
   (if l.hasFlightMode then 1 <<< 3 else 0)) % 256

/-- Method `Layout::decorate`: the object after the call and the calls made. -/
def Layout.decorate (l : Layout) : Layout × List DecorationCall :=
  if checkSettings l = l.decorationSettings then (l, [])
  else
    ({ l with decorationSettings := checkSettings l },
      [DecorationCall.setTopbarVisible l.hasTopbar,
       DecorationCall.setSlidersVisible l.hasSliders,
       DecorationCall.setTrimsVisible l.hasTrims,
       DecorationCall.setFlightModeVisible l.hasFlightMode,
       DecorationCall.adjustDecoration,
       DecorationCall.updateZones,
       DecorationCall.invalidate])

/-! ## Calls of `loadCustomScreens`, slot by slot -/

/-- What `loadCustomScreens` asks of `loadLayout` for slot `i`: the name is read
through the pointer to the identifier field of record `i`, the block is the
configuration block of record `i`. -/
def slotLoad (layouts : List LayoutFactory) (recs : List CustomScreenData) (i : Nat) :
    Option LayoutPtr × List Nat × List Effect :=
  loadLayout layouts (bytesFrom recs i) (recs.getD i default).layoutData

/-- Calls of `loadCustomScreens` for slot `i`: those of `loadLayout`, then one
`attach` when a screen was produced. -/
def slotCalls (layouts : List LayoutFactory) (recs : List CustomScreenData) (i : Nat) :
    List Effect :=
  (slotLoad layouts recs i).2.2 ++
    match (slotLoad layouts recs i).1 with
    | some screen => [Effect.attach screen]
    | none => []

/-- Calls for `n` consecutive slots starting at slot `i`, in increasing order. -/
def callsFrom (layouts : List LayoutFactory) (recs : List CustomScreenData) :
    Nat → Nat → List Effect
  | 0, _ => []
  | n + 1, i => slotCalls layouts recs i ++ callsFrom layouts recs n (i + 1)

/-! ## The slot invariant -/

/-- The call `e` is a `create` or `load` of a factory whose identifier is the
string `id`, and it returned `screen`. -/
def produces (e : Effect) (screen : LayoutPtr) (id : List Nat) : Bool :=
  match e with
  | Effect.create fid _ (some p) => decide (p = screen ∧ cstr fid = cstr id)
  | Effect.load fid _ (some p) => decide (p = screen ∧ cstr fid = cstr id)
  | _ => false

/-- Among the calls made, one produced `screen` from a factory of identifier `id`. -/
def producedBy (trace : List Effect) (screen : LayoutPtr) (id : List Nat) : Bool :=
  trace.any (fun e => produces e screen id)

/-- Slot `i` is empty, or its live screen was produced by a factory whose
identifier is the string stored in the identifier field of record `i`. -/
def slotOk (s : State) (i : Nat) : Bool :=
  match s.customScreens.getD i none with
  | none => true
  | some screen => producedBy s.trace screen (s.screenData.getD i default).LayoutId

/-- The slot invariant: every slot is `slotOk`. -/
def SlotInvariant (s : State) : Prop :=
  ∀ i, i < s.customScreens.length → slotOk s i = true

instance (s : State) : Decidable (SlotInvariant s) := by
  unfold SlotInvariant; infer_instance

/-- Every identifier field has the size of the build and holds a terminator. -/
def State.FieldsOk (cfg : Config) (s : State) : Prop :=
  ∀ r ∈ s.screenData, r.LayoutId.length = cfg.LAYOUT_ID_LEN ∧ 0 ∈ r.LayoutId

instance (cfg : Config) (s : State) : Decidable (s.FieldsOk cfg) := by
  unfold State.FieldsOk; infer_instance

/-- The operations on the slot array other than `disposeCustomScreen`. -/
inductive SlotOp where
  | loadCustomScreens
  | loadDefaultLayout
  | createCustomScreen (factory : Option LayoutFactory) (customScreenIndex : Nat)
  | deleteCustomScreens

/-- One operation, run with the registry `layouts` and the global `defaultLayout`. -/
def runOp (cfg : Config) (layouts : List LayoutFactory)
    (defaultLayout : Option LayoutFactory) : SlotOp → State → State
  | SlotOp.loadCustomScreens, s => loadCustomScreens cfg layouts s
  | SlotOp.loadDefaultLayout, s => loadDefaultLayout defaultLayout s
  | SlotOp.createCustomScreen factory i, s => (createCustomScreen cfg factory i s).2
  | SlotOp.deleteCustomScreens, s => deleteCustomScreens s

/-- The factory handed to the operation, when there is one, has an identifier
strictly shorter than the identifier field. -/
def shortOp (cfg : Config) : SlotOp → Prop
  | SlotOp.createCustomScreen (some F) _ => (cstr F.getId).length < cfg.LAYOUT_ID_LEN
  | _ => True

/-- A sequence of operations, run from left to right. -/
def runOps (cfg : Config) (layouts : List LayoutFactory)
    (defaultLayout : Option LayoutFactory) (ops : List SlotOp) (s : State) : State :=
  ops.foldl (fun st op => runOp cfg layouts defaultLayout op st) s

instance (cfg : Config) (op : SlotOp) : Decidable (shortOp cfg op) := by
  cases op with
  | loadCustomScreens => exact isTrue trivial
  | loadDefaultLayout => exact isTrue trivial
  | createCustomScreen factory i =>
    cases factory with
    | none => exact isTrue trivial
    | some F => exact Nat.decLt _ _
  | deleteCustomScreens => exact isTrue trivial

/-! ## Sample data used by the concrete instances -/

/-- Four slots, identifier fields of 4 bytes, configuration blocks of 2 bytes. -/
def cfg4 : Config := ⟨4, 4, 2⟩

/-- Record `A`. -/
def recA : CustomScreenData := ⟨[65, 0, 0, 0], [1, 1]⟩

/-- Record `B`. -/
def recB : CustomScreenData := ⟨[66, 0, 0, 0], [2, 2]⟩

/-- Record `C`. -/
def recC : CustomScreenData := ⟨[67, 0, 0, 0], [3, 3]⟩

/-- Record `D`. -/
def recD : CustomScreenData := ⟨[68, 0, 0, 0], [4, 4]⟩

/-- Slots `[A, B, C, D]`, the first two with a live screen. -/
def stateABCD : State :=
  { customScreens := [some ⟨100⟩, some ⟨101⟩, none, none]
    screenData := [recA, recB, recC, recD]
    trace := [] }

/-- Slots `[A, B, C, D]` with no live screen. -/
def stateEmpty : State :=
  { customScreens := [none, none, none, none]
    screenData := [recA, recB, recC, recD]
    trace := [] }

/-- State reached from `stateABCD` when factory `"grid"` is put in slot 1. -/
def stateAGCD : State :=
  { customScreens := [some ⟨100⟩, some ⟨200⟩, none, none]
    screenData := [recA, ⟨[103, 114, 105, 100], [2, 2]⟩, recC, recD]
    trace := [Effect.deleteLater ⟨101⟩ true false, Effect.delete ⟨101⟩,
      Effect.create [103, 114, 105, 100, 0] [2, 2] (some ⟨200⟩)] }

/-- Factory `"grid"`: both constructors succeed and leave the block as it is. -/
def gridFactory : LayoutFactory :=
  { getId := [103, 114, 105, 100, 0]
    create := fun d => (some ⟨200⟩, d)
    load := fun d => (some ⟨201⟩, d) }

/-- Factory `"tabs"`: `create` yields no screen, `load` succeeds. -/
def tabsFactory : LayoutFactory :=
  { getId := [116, 97, 98, 115, 0]
    create := fun d => (none, d)
    load := fun d => (some ⟨301⟩, d) }

/-- A second factory with identifier `"grid"`, whose `load` yields another screen. -/
def gridClone : LayoutFactory :=
  { getId := [103, 114, 105, 100, 0]
    create := fun d => (some ⟨210⟩, d)
    load := fun d => (some ⟨211⟩, d) }

/-- The name `"unknown"`. -/
def unknownName : List Nat := [117, 110, 107, 110, 111, 119, 110, 0]

/-- State reached from `stateEmpty` by `loadDefaultLayout` with `"grid"` as the
default factory: the terminator of the 4-character identifier lands in the
first byte of the configuration block. -/
def stateDefaultGrid : State :=
  { customScreens := [some ⟨200⟩, none, none, none]
    screenData := [⟨[103, 114, 105, 100], [0, 1]⟩, recB, recC, recD]
    trace := [Effect.create [103, 114, 105, 100, 0] [0, 1] (some ⟨200⟩), Effect.attach ⟨200⟩] }

/-- State reached from `stateABCD` when factory `"tabs"`, whose `create` yields
no screen, is put in slot 1. -/
def stateTabsFailed : State :=
  { customScreens := [some ⟨100⟩, none, none, none]
    screenData := [recA, recB, recC, recD]
    trace := [Effect.deleteLater ⟨101⟩ true false, Effect.delete ⟨101⟩,
      Effect.create [116, 97, 98, 115, 0] [2, 2] none] }

/-- Two slots, identifier fields of 5 bytes, configuration blocks of 2 bytes. -/
def cfg2 : Config := ⟨2, 5, 2⟩

/-- Two empty slots; record 0 names `"tabs"`, record 1 names `"zzzz"`. -/
def stateTwo : State :=
  { customScreens := [none, none]
    screenData := [⟨[116, 97, 98, 115, 0], [9, 9]⟩, ⟨[122, 122, 122, 122, 0], [8, 8]⟩]
    trace := [] }

/-- Four slots, the first two holding the same screen. -/
def stateShared : State :=
  { customScreens := [some ⟨100⟩, some ⟨100⟩, none, none]
    screenData := [recA, recB, recC, recD]
    trace := [] }

/-- Factory `"tab"`, a 3-character identifier: `create` and `load` succeed. -/
def tabFactory : LayoutFactory :=
  { getId := [116, 97, 98, 0]
    create := fun d => (some ⟨400⟩, d)
    load := fun d => (some ⟨401⟩, d) }

/-- State reached from `stateABCD` when factory `"tab"` is put in slot 1. -/
def stateATCD : State :=
  { customScreens := [some ⟨100⟩, some ⟨400⟩, none, none]
    screenData := [recA, ⟨[116, 97, 98, 0], [2, 2]⟩, recC, recD]
    trace := [Effect.deleteLater ⟨101⟩ true false, Effect.delete ⟨101⟩,
      Effect.create [116, 97, 98, 0] [2, 2] (some ⟨400⟩)] }

/-! ## Helper lemmas -/

theorem strncpy_nil (n : Nat) : strncpy [] n = List.replicate n 0 := by
  induction n with
  | zero => rfl
  | succ n ih => simp [strncpy, ih, List.replicate_succ]

/-- The bytes written by `strncpy`: the string cut at `n` bytes, padded with `0`. -/
theorem strncpy_eq (src : List Nat) (n : Nat) :
    strncpy src n = (cstr src).take n ++ List.replicate (n - (cstr src).length) 0 := by
  induction src generalizing n with
  | nil => simp [strncpy_nil, cstr]
  | cons c cs ih =>
    cases n with
    | zero => simp [strncpy]
    | succ n =>
      by_cases hc : c = 0
      · simp [strncpy, cstr, hc, strncpy_nil, List.replicate_succ]
      · simp [strncpy, cstr, hc, ih]

theorem usub_len (m i : Nat) (hi : i < m) (hm : m < 4294967296) :
    usub (usub m i) 1 = m - i - 1 := by
  unfold usub
  omega

theorem memmove_shift {α : Type} (l : List α) (i : Nat) (hi : i < l.length) :
    memmove l i (i + 1) (l.length - i - 1)
      = l.take i ++ l.drop (i + 1) ++ l.drop (l.length - 1) := by
  unfold memmove
  have h1 : (l.drop (i + 1)).take (l.length - i - 1) = l.drop (i + 1) := by
    apply List.take_of_length_le
    simp
    omega
  simp only [h1]
  have h2 : i + (l.drop (i + 1)).length = l.length - 1 := by
    simp; omega
  rw [h2]

theorem set_last {α : Type} (l : List α) (i : Nat) (z : α) (hi : i < l.length) :
    (l.take i ++ l.drop (i + 1) ++ l.drop (l.length - 1)).set (l.length - 1) z
      = l.take i ++ l.drop (i + 1) ++ [z] := by
  have hlen : (l.take i ++ l.drop (i + 1)).length = l.length - 1 := by
    simp; omega
  rw [List.set_append_right _ _ (by omega)]
  rw [hlen]
  simp
  have : (l.drop (l.length - 1)).length = 1 := by simp; omega
  match h : l.drop (l.length - 1), this with
  | [x], _ => simp

/-- Closed form of the record array after an in-range `disposeCustomScreen`. -/
theorem disposeCustomScreen_screenData (cfg : Config) (s : State) (i : Nat)
    (hlen : s.screenData.length = cfg.MAX_CUSTOM_SCREENS)
    (hmax : cfg.MAX_CUSTOM_SCREENS < 4294967296)
    (hi : i < cfg.MAX_CUSTOM_SCREENS) :
    (disposeCustomScreen cfg i s).screenData
      = s.screenData.take i ++ s.screenData.drop (i + 1) ++ [zeroRecord cfg] := by
  unfold disposeCustomScreen
  rw [if_neg (by omega)]
  simp only [usub_len _ _ hi hmax]
  rw [← hlen, memmove_shift _ _ (by omega), set_last _ _ _ (by omega)]

/-- Function `strcmp` returns `0` exactly when the two C strings have the same bytes. -/
theorem strcmp_eq_zero_iff (a b : List Nat) : strcmp a b = 0 ↔ cstr a = cstr b := by
  induction a generalizing b with
  | nil =>
    cases b with
    | nil => simp [strcmp, cstr]
    | cons y ys =>
      by_cases hy : y = 0
      · simp [strcmp, cstr, hy]
      · simp [strcmp, cstr, hy]
  | cons x xs ih =>
    cases b with
    | nil =>
      by_cases hx : x = 0
      · simp [strcmp, cstr, hx]
      · simp [strcmp, cstr, hx]
    | cons y ys =>
      by_cases hxy : x = y
      · subst hxy
        by_cases hx : x = 0
        · simp [strcmp, cstr, hx]
        · simp [strcmp, cstr, hx, ih]
      · have hne : (x : Int) - (y : Int) ≠ 0 := by omega
        by_cases hx : x = 0
        · by_cases hy : y = 0
          · omega
          · simp [strcmp, cstr, hx, hy, hxy]
            omega
        · by_cases hy : y = 0
          · simp [strcmp, cstr, hx, hy, hxy]
          · simp [strcmp, cstr, hx, hy, hxy, hne]

theorem registered_append (acc fs : List LayoutFactory) :
    fs.foldl registerLayout acc = acc ++ fs := by
  induction fs generalizing acc with
  | nil => simp
  | cons f fs ih => simp [List.foldl, registerLayout, ih]

/-- The registry lists the factories in the order of the `registerLayout` calls. -/
theorem registered_eq (fs : List LayoutFactory) : registered fs = fs := by
  simp [registered, registered_append]

theorem getLayoutFactory_eq_none_iff (layouts : List LayoutFactory) (name : List Nat) :
    getLayoutFactory layouts name = none ↔ ∀ G ∈ layouts, cstr G.getId ≠ cstr name := by
  induction layouts with
  | nil => simp [getLayoutFactory]
  | cons f rest ih =>
    by_cases hf : strcmp name f.getId = 0
    · have := (strcmp_eq_zero_iff _ _).mp hf
      simp [getLayoutFactory, hf, this]
    · have : ¬ cstr name = cstr f.getId := fun h => hf ((strcmp_eq_zero_iff _ _).mpr h)
      simp [getLayoutFactory, hf, ih]
      intro _
      exact fun h => this h.symm

theorem getLayoutFactory_eq_some_iff (layouts : List LayoutFactory) (name : List Nat)
    (F : LayoutFactory) :
    getLayoutFactory layouts name = some F ↔
      ∃ pre post, layouts = pre ++ F :: post ∧ cstr F.getId = cstr name ∧
        ∀ G ∈ pre, cstr G.getId ≠ cstr name := by
  induction layouts with
  | nil => simp [getLayoutFactory]
  | cons f rest ih =>
    by_cases hf : strcmp name f.getId = 0
    · have hc := (strcmp_eq_zero_iff _ _).mp hf
      simp only [getLayoutFactory, hf, if_true, Option.some.injEq]
      constructor
      · rintro rfl
        exact ⟨[], rest, rfl, hc.symm, by simp⟩
      · rintro ⟨pre, post, hl, hid, hpre⟩
        cases pre with
        | nil =>
          simp at hl
          exact hl.1
        | cons p ps =>
          simp at hl
          exact absurd hc.symm (hl.1 ▸ hpre p (by simp))
    · have hc : ¬ cstr name = cstr f.getId := fun h => hf ((strcmp_eq_zero_iff _ _).mpr h)
      simp only [getLayoutFactory, hf, if_false, ih]
      constructor
      · rintro ⟨pre, post, hl, hid, hpre⟩
        refine ⟨f :: pre, post, by simp [hl], hid, ?_⟩
        intro G hG
        rcases List.mem_cons.mp hG with h | h
        · subst h; exact fun h => hc h.symm
        · exact hpre G h
      · rintro ⟨pre, post, hl, hid, hpre⟩
        cases pre with
        | nil =>
          simp at hl
          exact absurd (hl.1 ▸ hid.symm) hc
        | cons p ps =>
          simp at hl
          exact ⟨ps, post, hl.2, hid, fun G hG => hpre G (by simp [hG])⟩
/-- The value of `checkSettings` as a sum of the four flags. -/
theorem checkSettings_eq (l : Layout) :
    checkSettings l =
      (if l.hasTopbar then 1 else 0) + (if l.hasSliders then 2 else 0) +
      (if l.hasTrims then 4 else 0) + (if l.hasFlightMode then 8 else 0) := by
  obtain ⟨t, sl, tr, fm, m⟩ := l
  cases t <;> cases sl <;> cases tr <;> cases fm <;> simp [checkSettings]

theorem checkSettings_bits (l : Layout) :
    (checkSettings l).testBit 0 = l.hasTopbar ∧
    (checkSettings l).testBit 1 = l.hasSliders ∧
    (checkSettings l).testBit 2 = l.hasTrims ∧
    (checkSettings l).testBit 3 = l.hasFlightMode ∧
    checkSettings l < 16 := by
  rw [checkSettings_eq]
  obtain ⟨t, sl, tr, fm, m⟩ := l
  cases t <;> cases sl <;> cases tr <;> cases fm <;> simp <;> decide
/-- Closed form of the loop of `deleteCustomScreens`: every slot is cleared and
one `deleteLater` is recorded per live slot, in slot order. -/
theorem deleteScreensLoop_eq (l : List (Option LayoutPtr)) :
    deleteScreensLoop l =
      (List.replicate l.length none,
        (l.filterMap id).map (fun p => Effect.deleteLater p true true)) := by
  induction l with
  | nil => rfl
  | cons x xs ih =>
    cases x with
    | none => simp [deleteScreensLoop, ih, List.replicate_succ]
    | some p => simp [deleteScreensLoop, ih, List.replicate_succ]

theorem count_deleteLater (l : List (Option LayoutPtr)) (p : LayoutPtr) :
    ((l.filterMap id).map (fun q => Effect.deleteLater q true true)).count
        (Effect.deleteLater p true true) = l.count (some p) := by
  induction l with
  | nil => rfl
  | cons x xs ih =>
    cases x with
    | none => simp [ih]
    | some q =>
      by_cases hq : q = p
      · subst hq
        simp [ih]
      · have h1 : (some q == some p) = false := by simp [hq]
        have h2 : (Effect.deleteLater q true true == Effect.deleteLater p true true) = false := by
          simp [hq]
        simp [List.count_cons, ih, h1, h2]

theorem getD_eq_of_getElem? {α : Type} (l : List α) (i : Nat) (d x : α)
    (h : l[i]? = some x) : l.getD i d = x := by
  rw [List.getD_eq_getElem?_getD, h]
  rfl

/-- The calls of an in-range `createCustomScreen` with a factory, whatever
`create` returns. -/
theorem createCustomScreen_trace (cfg : Config) (F : LayoutFactory) (i : Nat) (s : State)
    (hi : i < cfg.MAX_CUSTOM_SCREENS) :
    (createCustomScreen cfg (some F) i s).2.trace =
      s.trace ++
        (match s.customScreens.getD i none with
          | some old => [Effect.deleteLater old true false, Effect.delete old]
          | none => []) ++
        [Effect.create F.getId (s.screenData.getD i default).layoutData
          (F.create (s.screenData.getD i default).layoutData).1] := by
  unfold createCustomScreen
  simp only [ge_iff_le, if_neg (Nat.not_le.mpr hi)]
  cases hr : (F.create (s.screenData.getD i default).layoutData).1 <;> simp [hr]

theorem loadScreensLoop_succ (layouts : List LayoutFactory) (fuel i : Nat) (s : State) :
    loadScreensLoop layouts (fuel + 1) i s =
      loadScreensLoop layouts fuel (i + 1)
        { customScreens := s.customScreens.set i (slotLoad layouts s.screenData i).1
          screenData := s.screenData.set i
            { s.screenData.getD i default with
              layoutData := (slotLoad layouts s.screenData i).2.1 }
          trace := s.trace ++ slotCalls layouts s.screenData i } := by
  simp only [loadScreensLoop, slotLoad, slotCalls, List.append_assoc]

theorem bytesFrom_set (recs : List CustomScreenData) (i k : Nat) (x : CustomScreenData)
    (h : i < k) : bytesFrom (recs.set i x) k = bytesFrom recs k := by
  unfold bytesFrom
  rw [List.drop_set_of_lt _ _ h]

theorem slotLoad_set (layouts : List LayoutFactory) (recs : List CustomScreenData)
    (i k : Nat) (x : CustomScreenData) (h : i < k) :
    slotLoad layouts (recs.set i x) k = slotLoad layouts recs k := by
  unfold slotLoad
  rw [bytesFrom_set _ _ _ _ h, List.getD_eq_getElem?_getD, List.getD_eq_getElem?_getD,
    List.getElem?_set_ne (Nat.ne_of_lt h)]

theorem slotCalls_set (layouts : List LayoutFactory) (recs : List CustomScreenData)
    (i k : Nat) (x : CustomScreenData) (h : i < k) :
    slotCalls layouts (recs.set i x) k = slotCalls layouts recs k := by
  unfold slotCalls
  rw [slotLoad_set _ _ _ _ _ h]

theorem callsFrom_set (layouts : List LayoutFactory) (recs : List CustomScreenData)
    (n i k : Nat) (x : CustomScreenData) (h : i < k) :
    callsFrom layouts (recs.set i x) n k = callsFrom layouts recs n k := by
  induction n generalizing k with
  | zero => rfl
  | succ n ih =>
    simp only [callsFrom]
    rw [slotCalls_set _ _ _ _ _ h, ih (k + 1) (by omega)]

/-- The live screens after the loop of `loadCustomScreens`: slots below the
start are untouched, each slot of the range holds what `loadLayout` gave for
its record in the starting state. -/
theorem loadScreensLoop_screens (layouts : List LayoutFactory) (fuel i : Nat) (s : State)
    (j : Nat) :
    (j < i → (loadScreensLoop layouts fuel i s).customScreens[j]? = s.customScreens[j]?) ∧
    (i ≤ j → j < i + fuel → j < s.customScreens.length →
      (loadScreensLoop layouts fuel i s).customScreens[j]?
        = some (slotLoad layouts s.screenData j).1) := by
  induction fuel generalizing i s with
  | zero =>
    refine ⟨fun _ => rfl, fun h1 h2 _ => ?_⟩
    omega
  | succ fuel ih =>
    rw [loadScreensLoop_succ]
    refine ⟨fun hj => ?_, fun h1 h2 h3 => ?_⟩
    · rw [(ih (i + 1) _).1 (by omega)]
      simp only [List.getElem?_set_ne (Nat.ne_of_gt hj)]
    · by_cases hji : j = i
      · subst hji
        rw [(ih (j + 1) _).1 (by omega)]
        simp only [List.getElem?_set_self h3]
      · rw [(ih (i + 1) _).2 (by omega) (by omega) (by simpa using h3)]
        simp only [slotLoad_set _ _ _ _ _ (by omega : i < j)]

/-- The calls of the loop of `loadCustomScreens`: slot by slot, in increasing order. -/
theorem loadScreensLoop_trace (layouts : List LayoutFactory) (fuel i : Nat) (s : State) :
    (loadScreensLoop layouts fuel i s).trace
      = s.trace ++ callsFrom layouts s.screenData fuel i := by
  induction fuel generalizing i s with
  | zero => simp [loadScreensLoop, callsFrom]
  | succ fuel ih =>
    rw [loadScreensLoop_succ, ih]
    simp only [callsFrom, callsFrom_set _ _ _ _ _ _ (by omega : i < i + 1), List.append_assoc]

/-- The loop of `loadCustomScreens` writes no identifier field. -/
theorem loadScreensLoop_ids (layouts : List LayoutFactory) (fuel i : Nat) (s : State)
    (j : Nat) :
    ((loadScreensLoop layouts fuel i s).screenData[j]?).map CustomScreenData.LayoutId
      = (s.screenData[j]?).map CustomScreenData.LayoutId := by
  induction fuel generalizing i s with
  | zero => rfl
  | succ fuel ih =>
    rw [loadScreensLoop_succ, ih]
    by_cases hji : j = i
    · subst hji
      by_cases hlen : j < s.screenData.length
      · simp only [List.getElem?_set_self hlen]
        rw [List.getD_eq_getElem?_getD, List.getElem?_eq_getElem hlen]
        rfl
      · have hle : s.screenData.length ≤ j := by omega
        simp only [List.set_eq_of_length_le hle]
    · simp only [List.getElem?_set_ne (Ne.symm hji)]

/-- A string that ends inside a buffer does not depend on what follows the buffer. -/
theorem cstr_append_of_mem (a b : List Nat) (h : 0 ∈ a) : cstr (a ++ b) = cstr a := by
  induction a with
  | nil => simp at h
  | cons x xs ih =>
    by_cases hx : x = 0
    · simp [cstr, hx]
    · have hxs : 0 ∈ xs := by
        rcases List.mem_cons.mp h with h | h
        · exact absurd h.symm hx
        · exact h
      simp [cstr, hx, ih hxs]

theorem bytesFrom_eq (recs : List CustomScreenData) (i : Nat) (r : CustomScreenData)
    (h : recs[i]? = some r) :
    bytesFrom recs i = r.LayoutId ++ (r.layoutData ++ bytesFrom recs (i + 1)) := by
  obtain ⟨hlt, hget⟩ := List.getElem?_eq_some_iff.mp h
  unfold bytesFrom
  rw [List.drop_eq_getElem_cons hlt, hget]
  simp

/-- The name read through the pointer to a terminated identifier field is the
string stored in the field. -/
theorem cstr_bytesFrom (recs : List CustomScreenData) (i : Nat) (r : CustomScreenData)
    (h : recs[i]? = some r) (hz : 0 ∈ r.LayoutId) :
    cstr (bytesFrom recs i) = cstr r.LayoutId := by
  rw [bytesFrom_eq recs i r h, cstr_append_of_mem _ _ hz]

theorem zero_not_mem_cstr (a : List Nat) : 0 ∉ cstr a := by
  induction a with
  | nil => simp [cstr]
  | cons x xs ih =>
    by_cases hx : x = 0
    · simp [cstr, hx]
    · simp only [cstr, hx, if_false, List.mem_cons, not_or]
      exact ⟨fun h => hx h.symm, ih⟩

theorem cstr_append_zeros (a : List Nat) (k : Nat) (h : 0 ∉ a) :
    cstr (a ++ List.replicate k 0) = a := by
  induction a with
  | nil =>
    cases k with
    | zero => rfl
    | succ k => simp [cstr, List.replicate_succ]
  | cons x xs ih =>
    have hx : x ≠ 0 := fun hx => h (by simp [hx])
    have hxs : 0 ∉ xs := fun hxs => h (by simp [hxs])
    simp [cstr, hx, ih hxs]

/-- The string left in a field by `strncpy`: the source string cut at the size
of the field. -/
theorem cstr_strncpy (src : List Nat) (n : Nat) :
    cstr (strncpy src n) = (cstr src).take n := by
  rw [strncpy_eq]
  exact cstr_append_zeros _ _ (fun h => zero_not_mem_cstr src (List.mem_of_mem_take h))

theorem strncpy_length (src : List Nat) (n : Nat) : (strncpy src n).length = n := by
  rw [strncpy_eq]
  simp
  omega

/-- A source string shorter than the field leaves a terminator in the field. -/
theorem zero_mem_strncpy (src : List Nat) (n : Nat) (h : (cstr src).length < n) :
    0 ∈ strncpy src n := by
  rw [strncpy_eq]
  apply List.mem_append_right
  rw [List.mem_replicate]
  exact ⟨by omega, rfl⟩

/-- Result of an in-range `createCustomScreen` when `create` returns a screen. -/
theorem createCustomScreen_some (cfg : Config) (F : LayoutFactory) (i : Nat) (s : State)
    (screen : LayoutPtr) (hi : i < cfg.MAX_CUSTOM_SCREENS)
    (hr : (F.create (s.screenData.getD i default).layoutData).1 = some screen) :
    createCustomScreen cfg (some F) i s =
      (some screen,
        { customScreens := s.customScreens.set i (some screen)
          screenData := s.screenData.set i
            ⟨strncpy F.getId cfg.LAYOUT_ID_LEN,
              (F.create (s.screenData.getD i default).layoutData).2⟩
          trace := s.trace ++
            (match s.customScreens.getD i none with
              | some old => [Effect.deleteLater old true false, Effect.delete old]
              | none => []) ++
            [Effect.create F.getId (s.screenData.getD i default).layoutData (some screen)] }) := by
  unfold createCustomScreen
  simp only [ge_iff_le, if_neg (Nat.not_le.mpr hi), hr]

/-- Result of an in-range `createCustomScreen` when `create` returns no screen. -/
theorem createCustomScreen_none (cfg : Config) (F : LayoutFactory) (i : Nat) (s : State)
    (hi : i < cfg.MAX_CUSTOM_SCREENS)
    (hr : (F.create (s.screenData.getD i default).layoutData).1 = none) :
    createCustomScreen cfg (some F) i s =
      (none,
        { customScreens := s.customScreens.set i none
          screenData := s.screenData.set i
            { s.screenData.getD i default with
              layoutData := (F.create (s.screenData.getD i default).layoutData).2 }
          trace := s.trace ++
            (match s.customScreens.getD i none with
              | some old => [Effect.deleteLater old true false, Effect.delete old]
              | none => []) ++
            [Effect.create F.getId (s.screenData.getD i default).layoutData none] }) := by
  unfold createCustomScreen
  simp only [ge_iff_le, if_neg (Nat.not_le.mpr hi), hr]

/-- An in-range `createCustomScreen` returns what `create` returned. -/
theorem createCustomScreen_fst (cfg : Config) (F : LayoutFactory) (i : Nat) (s : State)
    (hi : i < cfg.MAX_CUSTOM_SCREENS) :
    (createCustomScreen cfg (some F) i s).1
      = (F.create (s.screenData.getD i default).layoutData).1 := by
  cases hr : (F.create (s.screenData.getD i default).layoutData).1 with
  | none => rw [createCustomScreen_none cfg F i s hi hr]
  | some screen => rw [createCustomScreen_some cfg F i s screen hi hr]

/-- Slot `i` after `loadCustomScreens`, for arrays of `MAX_CUSTOM_SCREENS` slots. -/
theorem loadCustomScreens_slot (cfg : Config) (layouts : List LayoutFactory) (s : State)
    (i : Nat) (hi : i < cfg.MAX_CUSTOM_SCREENS)
    (hlen : s.customScreens.length = cfg.MAX_CUSTOM_SCREENS) :
    (loadCustomScreens cfg layouts s).customScreens[i]?
      = some (slotLoad layouts s.screenData i).1 :=
  (loadScreensLoop_screens layouts cfg.MAX_CUSTOM_SCREENS 0 s i).2
    (Nat.zero_le i) (by omega) (by omega)

theorem getD_set_ne {α : Type} (l : List α) (i j : Nat) (x d : α) (h : i ≠ j) :
    (l.set i x).getD j d = l.getD j d := by
  rw [List.getD_eq_getElem?_getD, List.getD_eq_getElem?_getD, List.getElem?_set_ne h]

theorem getD_set_self {α : Type} (l : List α) (i : Nat) (x d : α) (h : i < l.length) :
    (l.set i x).getD i d = x := by
  rw [List.getD_eq_getElem?_getD, List.getElem?_set_self h]
  rfl

theorem producedBy_append (t added : List Effect) (p : LayoutPtr) (id : List Nat)
    (h : producedBy t p id = true) : producedBy (t ++ added) p id = true := by
  unfold producedBy at *
  rw [List.any_append, h]
  rfl

theorem producedBy_of_mem (t : List Effect) (e : Effect) (p : LayoutPtr) (id : List Nat)
    (hmem : e ∈ t) (he : produces e p id = true) : producedBy t p id = true := by
  unfold producedBy
  exact List.any_eq_true.mpr ⟨e, hmem, he⟩

/-- An empty slot satisfies the invariant. -/
theorem slotOk_of_empty (s : State) (j : Nat) (h : s.customScreens.getD j none = none) :
    slotOk s j = true := by
  unfold slotOk
  rw [h]

/-- A slot that keeps its screen and its identifier field stays in the
invariant when calls are added. -/
theorem slotOk_of_same (s s' : State) (j : Nat) (added : List Effect)
    (hcs : s'.customScreens.getD j none = s.customScreens.getD j none)
    (hid : (s'.screenData.getD j default).LayoutId = (s.screenData.getD j default).LayoutId)
    (htr : s'.trace = s.trace ++ added) (h : slotOk s j = true) : slotOk s' j = true := by
  unfold slotOk at *
  rw [hcs, hid, htr]
  cases hscreen : s.customScreens.getD j none with
  | none => rfl
  | some screen =>
    rw [hscreen] at h
    exact producedBy_append _ _ _ _ h

/-- A slot whose screen was returned by a recorded call of a factory with the
stored identifier satisfies the invariant. -/
theorem slotOk_of_call (s : State) (j : Nat) (screen : LayoutPtr) (e : Effect)
    (hcs : s.customScreens.getD j none = some screen) (hmem : e ∈ s.trace)
    (he : produces e screen (s.screenData.getD j default).LayoutId = true) :
    slotOk s j = true := by
  unfold slotOk
  rw [hcs]
  exact producedBy_of_mem _ e _ _ hmem he

/-- Function `deleteCustomScreens` establishes the slot invariant. -/
theorem slotInvariant_deleteCustomScreens (s : State) :
    SlotInvariant (deleteCustomScreens s) := by
  intro i _
  apply slotOk_of_empty
  unfold deleteCustomScreens
  rw [deleteScreensLoop_eq]
  show (List.replicate s.customScreens.length none).getD i none = none
  rw [List.getD_eq_getElem?_getD, List.getElem?_replicate]
  split <;> rfl

/-- Function `createCustomScreen` keeps the slot invariant when the identifier
of the factory fits the identifier field. -/
theorem slotInvariant_createCustomScreen (cfg : Config) (factory : Option LayoutFactory)
    (i : Nat) (s : State) (hwf : s.WF cfg) (hinv : SlotInvariant s)
    (hfit : ∀ F, factory = some F → (cstr F.getId).length ≤ cfg.LAYOUT_ID_LEN) :
    SlotInvariant (createCustomScreen cfg factory i s).2 := by
  obtain ⟨hcs, hsd⟩ := hwf
  cases factory with
  | none => exact hinv
  | some F =>
    by_cases hi : i < cfg.MAX_CUSTOM_SCREENS
    · cases hr : (F.create (s.screenData.getD i default).layoutData).1 with
      | none =>
        rw [createCustomScreen_none cfg F i s hi hr]
        intro j hj
        have hj' : j < s.customScreens.length := by simpa using hj
        by_cases hji : j = i
        · subst hji
          exact slotOk_of_empty _ _ (getD_set_self _ _ _ _ hj')
        · refine slotOk_of_same s _ j _ (getD_set_ne _ _ _ _ _ (Ne.symm hji)) ?_
            (List.append_assoc _ _ _) (hinv j hj')
          show ((s.screenData.set i _).getD j default).LayoutId = _
          rw [getD_set_ne _ _ _ _ _ (Ne.symm hji)]
      | some screen =>
        rw [createCustomScreen_some cfg F i s screen hi hr]
        intro j hj
        have hj' : j < s.customScreens.length := by simpa using hj
        by_cases hji : j = i
        · subst hji
          refine slotOk_of_call _ j screen
            (Effect.create F.getId (s.screenData.getD j default).layoutData (some screen))
            (getD_set_self _ _ _ _ hj') (by simp) ?_
          show produces _ screen ((s.screenData.set j _).getD j default).LayoutId = true
          rw [getD_set_self _ _ _ _ (by omega)]
          simp only [produces, cstr_strncpy, decide_eq_true_eq, true_and]
          rw [List.take_of_length_le (hfit F rfl)]
        · refine slotOk_of_same s _ j _ (getD_set_ne _ _ _ _ _ (Ne.symm hji)) ?_
            (List.append_assoc _ _ _) (hinv j hj')
          show ((s.screenData.set i _).getD j default).LayoutId = _
          rw [getD_set_ne _ _ _ _ _ (Ne.symm hji)]
    · unfold createCustomScreen
      simp only [ge_iff_le, if_pos (Nat.not_lt.mp hi)]
      exact hinv

theorem overwrite_nil (dst : List Nat) : overwrite dst [] = dst := by
  simp [overwrite]

theorem writeRecords_nil (recs : List CustomScreenData) : writeRecords recs [] = recs := by
  induction recs with
  | nil => rfl
  | cons r rs ih => simp [writeRecords, overwrite_nil, ih]

/-- A write that fits the identifier field of the first record changes the
beginning of that field and nothing else. -/
theorem writeRecords_fit (r : CustomScreenData) (rest : List CustomScreenData)
    (bytes : List Nat) (h : bytes.length ≤ r.LayoutId.length) :
    writeRecords (r :: rest) bytes
      = ⟨bytes ++ r.LayoutId.drop bytes.length, r.layoutData⟩ :: rest := by
  have h1 : bytes.drop r.LayoutId.length = [] := List.drop_eq_nil_of_le h
  have h2 : bytes.drop (r.LayoutId.length + r.layoutData.length) = [] :=
    List.drop_eq_nil_of_le (by omega)
  simp only [writeRecords, h1, h2, overwrite_nil, writeRecords_nil]
  simp only [overwrite, List.take_of_length_le h]

/-- The string left by `strcpy` at the beginning of a buffer is the source string. -/
theorem cstr_strcpy_append (src b : List Nat) : cstr (strcpy src ++ b) = cstr src := by
  unfold strcpy
  induction src with
  | nil => simp [cstr]
  | cons x xs ih =>
    by_cases hx : x = 0
    · simp [cstr, hx]
    · simpa [cstr, hx] using ih

theorem strcpy_length (src : List Nat) : (strcpy src).length = (cstr src).length + 1 := by
  simp [strcpy]

/-- Result of `loadDefaultLayout` when slot 0 is empty and a default factory is set. -/
theorem loadDefaultLayout_run (F : LayoutFactory) (s : State)
    (h0 : s.customScreens.getD 0 none = none) :
    loadDefaultLayout (some F) s =
      { customScreens := s.customScreens.set 0
          (F.create ((writeRecords s.screenData (strcpy F.getId)).getD 0 default).layoutData).1
        screenData := (writeRecords s.screenData (strcpy F.getId)).set 0
          { (writeRecords s.screenData (strcpy F.getId)).getD 0 default with
            layoutData :=
              (F.create
                ((writeRecords s.screenData (strcpy F.getId)).getD 0 default).layoutData).2 }
        trace := s.trace ++
          [Effect.create F.getId
            ((writeRecords s.screenData (strcpy F.getId)).getD 0 default).layoutData
            (F.create
              ((writeRecords s.screenData (strcpy F.getId)).getD 0 default).layoutData).1] ++
          (match (F.create
              ((writeRecords s.screenData (strcpy F.getId)).getD 0 default).layoutData).1 with
            | some screen => [Effect.attach screen]
            | none => []) } := by
  unfold loadDefaultLayout
  simp only [h0]

/-- Function `loadDefaultLayout` keeps the slot invariant when the identifier
of the default factory and its terminator fit the identifier field of slot 0. -/
theorem slotInvariant_loadDefaultLayout (cfg : Config) (defaultLayout : Option LayoutFactory)
    (s : State) (hwf : s.WF cfg) (hinv : SlotInvariant s)
    (hfit : ∀ F r, defaultLayout = some F → s.screenData[0]? = some r →
      (cstr F.getId).length < r.LayoutId.length) :
    SlotInvariant (loadDefaultLayout defaultLayout s) := by
  obtain ⟨hcs, hsd⟩ := hwf
  cases defaultLayout with
  | none =>
    have : loadDefaultLayout none s = s := by
      unfold loadDefaultLayout
      cases s.customScreens.getD 0 none <;> rfl
    rw [this]
    exact hinv
  | some F =>
    cases h0 : s.customScreens.getD 0 none with
    | some screen =>
      have : loadDefaultLayout (some F) s = s := by
        unfold loadDefaultLayout
        rw [h0]
      rw [this]
      exact hinv
    | none =>
      rw [loadDefaultLayout_run F s h0]
      cases hrecs : s.screenData with
      | nil =>
        intro j hj
        have : j < s.customScreens.length := by simpa using hj
        rw [hrecs] at hsd
        simp at hsd
        omega
      | cons r rest =>
        have hbytes : (strcpy F.getId).length ≤ r.LayoutId.length := by
          rw [strcpy_length]
          exact hfit F r rfl (by simp [hrecs])
        rw [writeRecords_fit r rest _ hbytes]
        simp only [List.getD_cons_zero, List.set_cons_zero]
        intro j hj
        have hj' : j < s.customScreens.length := by simpa using hj
        by_cases hj0 : j = 0
        · subst hj0
          cases hr : (F.create r.layoutData).1 with
          | none =>
            apply slotOk_of_empty
            show (s.customScreens.set 0 _).getD 0 none = none
            rw [getD_set_self _ _ _ _ hj']
          | some screen =>
            refine slotOk_of_call _ 0 screen
              (Effect.create F.getId r.layoutData (some screen)) ?_ ?_ ?_
            · show (s.customScreens.set 0 _).getD 0 none = some screen
              rw [getD_set_self _ _ _ _ hj']
            · show _ ∈ s.trace ++ [Effect.create F.getId r.layoutData (some screen)] ++ _
              simp
            · show produces _ screen (strcpy F.getId ++ r.LayoutId.drop (strcpy F.getId).length)
                = true
              simp only [produces, cstr_strcpy_append, decide_eq_true_eq, true_and]
        · refine slotOk_of_same s _ j _ ?_ ?_ (List.append_assoc _ _ _) (hinv j hj')
          · show (s.customScreens.set 0 _).getD j none = _
            rw [getD_set_ne _ _ _ _ _ (Ne.symm hj0)]
          · rw [hrecs]
            cases j with
            | zero => exact absurd rfl hj0
            | succ j => rfl

theorem loadScreensLoop_length (layouts : List LayoutFactory) (fuel i : Nat) (s : State) :
    (loadScreensLoop layouts fuel i s).customScreens.length = s.customScreens.length := by
  induction fuel generalizing i s with
  | zero => rfl
  | succ fuel ih =>
    rw [loadScreensLoop_succ, ih]
    simp

theorem mem_callsFrom (layouts : List LayoutFactory) (recs : List CustomScreenData)
    (n i j : Nat) (e : Effect) (hij : i ≤ j) (hj : j < i + n)
    (he : e ∈ slotCalls layouts recs j) : e ∈ callsFrom layouts recs n i := by
  induction n generalizing i with
  | zero => omega
  | succ n ih =>
    simp only [callsFrom, List.mem_append]
    by_cases h : j = i
    · subst h
      exact Or.inl he
    · exact Or.inr (ih (i + 1) (by omega) (by omega))

/-- What `loadLayout` returns when it returns a screen: the factory found has
the identifier `name`, and its `load` call is the one recorded. -/
theorem loadLayout_some (layouts : List LayoutFactory) (name data : List Nat)
    (screen : LayoutPtr) (h : (loadLayout layouts name data).1 = some screen) :
    ∃ F : LayoutFactory, cstr F.getId = cstr name ∧
      (loadLayout layouts name data).2.2 = [Effect.load F.getId data (some screen)] := by
  unfold loadLayout at h ⊢
  cases hf : getLayoutFactory layouts name with
  | none =>
    rw [hf] at h
    simp at h
  | some F =>
    rw [hf] at h
    obtain ⟨_, _, _, hid, _⟩ := (getLayoutFactory_eq_some_iff layouts name F).mp hf
    simp only at h
    exact ⟨F, hid, by simp only [h]⟩

/-- Function `loadCustomScreens` establishes the slot invariant when every
identifier field holds a terminator. -/
theorem slotInvariant_loadCustomScreens (cfg : Config) (layouts : List LayoutFactory)
    (s : State) (hwf : s.WF cfg) (hterm : ∀ r ∈ s.screenData, 0 ∈ r.LayoutId) :
    SlotInvariant (loadCustomScreens cfg layouts s) := by
  obtain ⟨hcs, hsd⟩ := hwf
  intro j hj
  have hjm : j < cfg.MAX_CUSTOM_SCREENS := by
    unfold loadCustomScreens at hj
    rw [loadScreensLoop_length] at hj
    omega
  have hslot := loadCustomScreens_slot cfg layouts s j hjm hcs
  have hids := loadScreensLoop_ids layouts cfg.MAX_CUSTOM_SCREENS 0 s j
  have htrace := loadScreensLoop_trace layouts cfg.MAX_CUSTOM_SCREENS 0 s
  have hrec : s.screenData[j]? = some (s.screenData[j]) := List.getElem?_eq_getElem (by omega)
  cases hscreen : (slotLoad layouts s.screenData j).1 with
  | none =>
    apply slotOk_of_empty
    rw [List.getD_eq_getElem?_getD, hslot, hscreen]
    rfl
  | some screen =>
    obtain ⟨F, hid, hcall⟩ := loadLayout_some layouts _ _ screen hscreen
    refine slotOk_of_call _ j screen
      (Effect.load F.getId (s.screenData.getD j default).layoutData (some screen)) ?_ ?_ ?_
    · rw [List.getD_eq_getElem?_getD, hslot, hscreen]
      rfl
    · show _ ∈ (loadScreensLoop layouts cfg.MAX_CUSTOM_SCREENS 0 s).trace
      rw [htrace]
      apply List.mem_append_right
      refine mem_callsFrom layouts _ _ 0 j _ (Nat.zero_le j) (by omega) ?_
      unfold slotCalls
      apply List.mem_append_left
      show _ ∈ (loadLayout layouts (bytesFrom s.screenData j)
        (s.screenData.getD j default).layoutData).2.2
      rw [hcall]
      simp
    · have hfield : ((loadCustomScreens cfg layouts s).screenData.getD j default).LayoutId
          = (s.screenData[j]).LayoutId := by
        rw [List.getD_eq_getElem?_getD]
        unfold loadCustomScreens
        rw [hrec] at hids
        cases hnew : (loadScreensLoop layouts cfg.MAX_CUSTOM_SCREENS 0 s).screenData[j]? with
        | none =>
          rw [hnew] at hids
          simp at hids
        | some r' =>
          rw [hnew] at hids
          simpa using hids
      rw [hfield]
      have hname := cstr_bytesFrom s.screenData j _ hrec
        (hterm _ (List.getElem_mem _))
      simp only [produces, decide_eq_true_eq, true_and]
      rw [hid, hname]

theorem loadScreensLoop_length_data (layouts : List LayoutFactory) (fuel i : Nat) (s : State) :
    (loadScreensLoop layouts fuel i s).screenData.length = s.screenData.length := by
  induction fuel generalizing i s with
  | zero => rfl
  | succ fuel ih =>
    rw [loadScreensLoop_succ, ih]
    simp

theorem writeRecords_length (recs : List CustomScreenData) (bytes : List Nat) :
    (writeRecords recs bytes).length = recs.length := by
  induction recs generalizing bytes with
  | nil => rfl
  | cons r rs ih => simp [writeRecords, ih]

theorem loadDefaultLayout_eq_or (defaultLayout : Option LayoutFactory) (s : State) :
    loadDefaultLayout defaultLayout s = s ∨
      ∃ F, defaultLayout = some F ∧ s.customScreens.getD 0 none = none := by
  cases defaultLayout with
  | none =>
    left
    unfold loadDefaultLayout
    cases s.customScreens.getD 0 none <;> rfl
  | some F =>
    cases h0 : s.customScreens.getD 0 none with
    | some screen =>
      left
      unfold loadDefaultLayout
      rw [h0]
    | none => exact Or.inr ⟨F, rfl, rfl⟩

theorem createCustomScreen_eq_or (cfg : Config) (factory : Option LayoutFactory) (i : Nat)
    (s : State) :
    (createCustomScreen cfg factory i s).2 = s ∨
      ∃ F, factory = some F ∧ i < cfg.MAX_CUSTOM_SCREENS := by
  cases factory with
  | none => exact Or.inl rfl
  | some F =>
    by_cases hi : i < cfg.MAX_CUSTOM_SCREENS
    · exact Or.inr ⟨F, rfl, hi⟩
    · left
      unfold createCustomScreen
      simp only [ge_iff_le, if_pos (Nat.not_lt.mp hi)]

/-- Every operation keeps the two arrays at `MAX_CUSTOM_SCREENS` elements. -/
theorem wf_runOp (cfg : Config) (layouts : List LayoutFactory)
    (defaultLayout : Option LayoutFactory) (op : SlotOp) (s : State) (hwf : s.WF cfg) :
    (runOp cfg layouts defaultLayout op s).WF cfg := by
  obtain ⟨hcs, hsd⟩ := hwf
  cases op with
  | loadCustomScreens =>
    exact ⟨(loadScreensLoop_length layouts _ 0 s).trans hcs,
      (loadScreensLoop_length_data layouts _ 0 s).trans hsd⟩
  | loadDefaultLayout =>
    show (loadDefaultLayout defaultLayout s).WF cfg
    rcases loadDefaultLayout_eq_or defaultLayout s with h | ⟨F, hF, h0⟩
    · rw [h]
      exact ⟨hcs, hsd⟩
    · subst hF
      rw [loadDefaultLayout_run F s h0]
      constructor
      · show (s.customScreens.set 0 _).length = _
        rw [List.length_set]
        exact hcs
      · show ((writeRecords s.screenData (strcpy F.getId)).set 0 _).length = _
        rw [List.length_set, writeRecords_length]
        exact hsd
  | createCustomScreen factory i =>
    show (createCustomScreen cfg factory i s).2.WF cfg
    rcases createCustomScreen_eq_or cfg factory i s with h | ⟨F, hF, hi⟩
    · rw [h]
      exact ⟨hcs, hsd⟩
    · subst hF
      cases hr : (F.create (s.screenData.getD i default).layoutData).1 with
      | none =>
        rw [createCustomScreen_none cfg F i s hi hr]
        constructor
        · show (s.customScreens.set i _).length = _
          rw [List.length_set]
          exact hcs
        · show (s.screenData.set i _).length = _
          rw [List.length_set]
          exact hsd
      | some screen =>
        rw [createCustomScreen_some cfg F i s screen hi hr]
        constructor
        · show (s.customScreens.set i _).length = _
          rw [List.length_set]
          exact hcs
        · show (s.screenData.set i _).length = _
          rw [List.length_set]
          exact hsd
  | deleteCustomScreens =>
    show (deleteCustomScreens s).WF cfg
    unfold deleteCustomScreens
    rw [deleteScreensLoop_eq]
    constructor
    · show (List.replicate s.customScreens.length none).length = _
      rw [List.length_replicate]
      exact hcs
    · exact hsd

theorem zero_mem_strcpy_append (src b : List Nat) : 0 ∈ strcpy src ++ b := by
  unfold strcpy
  simp

/-- Every operation keeps the identifier fields at their size and terminated,
when the identifiers it copies are shorter than the field. -/
theorem fieldsOk_runOp (cfg : Config) (layouts : List LayoutFactory)
    (defaultLayout : Option LayoutFactory) (op : SlotOp) (s : State)
    (hwf : s.WF cfg) (hok : s.FieldsOk cfg)
    (hdefault : ∀ F, defaultLayout = some F → (cstr F.getId).length < cfg.LAYOUT_ID_LEN)
    (hshort : shortOp cfg op) :
    (runOp cfg layouts defaultLayout op s).FieldsOk cfg := by
  obtain ⟨hcs, hsd⟩ := hwf
  cases op with
  | loadCustomScreens =>
    show (loadScreensLoop layouts cfg.MAX_CUSTOM_SCREENS 0 s).FieldsOk cfg
    intro r' hr'
    obtain ⟨j, hj, hget⟩ := List.getElem_of_mem hr'
    have hids := loadScreensLoop_ids layouts cfg.MAX_CUSTOM_SCREENS 0 s j
    have hjs : j < s.screenData.length := by
      have := loadScreensLoop_length_data layouts cfg.MAX_CUSTOM_SCREENS 0 s
      omega
    have h1 : (loadScreensLoop layouts cfg.MAX_CUSTOM_SCREENS 0 s).screenData[j]? = some r' := by
      rw [List.getElem?_eq_getElem hj]
      exact congrArg some hget
    rw [h1, List.getElem?_eq_getElem hjs] at hids
    simp only [Option.map_some', Option.some.injEq] at hids
    rw [hids]
    exact hok _ (List.getElem_mem _)
  | loadDefaultLayout =>
    show (loadDefaultLayout defaultLayout s).FieldsOk cfg
    rcases loadDefaultLayout_eq_or defaultLayout s with h | ⟨F, hF, h0⟩
    · rw [h]
      exact hok
    · rw [hF, loadDefaultLayout_run F s h0]
      cases hrecs : s.screenData with
      | nil =>
        intro r' hr'
        simp [writeRecords] at hr'
      | cons r rest =>
        have hr := hok r (by simp [hrecs])
        have hbytes : (strcpy F.getId).length ≤ r.LayoutId.length := by
          rw [strcpy_length, hr.1]
          exact hdefault F hF
        rw [writeRecords_fit r rest _ hbytes]
        simp only [List.getD_cons_zero, List.set_cons_zero]
        intro r' hr'
        rcases List.mem_cons.mp hr' with h | h
        · subst h
          refine ⟨?_, zero_mem_strcpy_append _ _⟩
          show (strcpy F.getId ++ r.LayoutId.drop (strcpy F.getId).length).length = _
          rw [List.length_append, List.length_drop, ← hr.1]
          omega
        · exact hok r' (by simp [hrecs, h])
  | createCustomScreen factory i =>
    show (createCustomScreen cfg factory i s).2.FieldsOk cfg
    rcases createCustomScreen_eq_or cfg factory i s with h | ⟨F, hF, hi⟩
    · rw [h]
      exact hok
    · subst hF
      have hF : (cstr F.getId).length < cfg.LAYOUT_ID_LEN := hshort
      cases hr : (F.create (s.screenData.getD i default).layoutData).1 with
      | none =>
        rw [createCustomScreen_none cfg F i s hi hr]
        intro r' hr'
        rcases List.mem_or_eq_of_mem_set hr' with h | h
        · exact hok r' h
        · subst h
          have hmem : s.screenData.getD i default ∈ s.screenData := by
            rw [List.getD_eq_getElem?_getD, List.getElem?_eq_getElem (by omega)]
            exact List.getElem_mem _
          exact hok (s.screenData.getD i default) hmem
      | some screen =>
        rw [createCustomScreen_some cfg F i s screen hi hr]
        intro r' hr'
        rcases List.mem_or_eq_of_mem_set hr' with h | h
        · exact hok r' h
        · subst h
          exact ⟨strncpy_length _ _, zero_mem_strncpy _ _ hF⟩
  | deleteCustomScreens =>
    show (deleteCustomScreens s).FieldsOk cfg
    unfold deleteCustomScreens
    exact hok

/-- Every operation other than `disposeCustomScreen` keeps the slot invariant
on well-formed arrays with terminated identifier fields, when the identifiers
it copies are shorter than the field. -/
theorem slotInvariant_runOp (cfg : Config) (layouts : List LayoutFactory)
    (defaultLayout : Option LayoutFactory) (op : SlotOp) (s : State)
    (hwf : s.WF cfg) (hok : s.FieldsOk cfg) (hinv : SlotInvariant s)
    (hdefault : ∀ F, defaultLayout = some F → (cstr F.getId).length < cfg.LAYOUT_ID_LEN)
    (hshort : shortOp cfg op) :
    SlotInvariant (runOp cfg layouts defaultLayout op s) := by
  cases op with
  | loadCustomScreens =>
    exact slotInvariant_loadCustomScreens cfg layouts s hwf (fun r hr => (hok r hr).2)
  | loadDefaultLayout =>
    refine slotInvariant_loadDefaultLayout cfg defaultLayout s hwf hinv ?_
    intro F r hF hr
    obtain ⟨hlt, hget⟩ := List.getElem?_eq_some_iff.mp hr
    rw [(hok r (hget ▸ List.getElem_mem hlt)).1]
    exact hdefault F hF
  | createCustomScreen factory i =>
    refine slotInvariant_createCustomScreen cfg factory i s hwf hinv ?_
    intro F hF
    subst hF
    exact Nat.le_of_lt hshort
  | deleteCustomScreens => exact slotInvariant_deleteCustomScreens s

/-- Sequences of operations other than `disposeCustomScreen` keep
well-formedness, terminated identifier fields and the slot invariant. -/
theorem good_runOps (cfg : Config) (layouts : List LayoutFactory)
    (defaultLayout : Option LayoutFactory) (ops : List SlotOp) (s : State)
    (hwf : s.WF cfg) (hok : s.FieldsOk cfg) (hinv : SlotInvariant s)
    (hdefault : ∀ F, defaultLayout = some F → (cstr F.getId).length < cfg.LAYOUT_ID_LEN)
    (hshort : ∀ op ∈ ops, shortOp cfg op) :
    (runOps cfg layouts defaultLayout ops s).WF cfg ∧
    (runOps cfg layouts defaultLayout ops s).FieldsOk cfg ∧
    SlotInvariant (runOps cfg layouts defaultLayout ops s) := by
  induction ops generalizing s with
  | nil => exact ⟨hwf, hok, hinv⟩
  | cons op ops ih =>
    have h1 : shortOp cfg op := hshort op (by simp)
    exact ih (runOp cfg layouts defaultLayout op s)
      (wf_runOp cfg layouts defaultLayout op s hwf)
      (fieldsOk_runOp cfg layouts defaultLayout op s hwf hok hdefault h1)
      (slotInvariant_runOp cfg layouts defaultLayout op s hwf hok hinv hdefault h1)
      (fun o ho => hshort o (by simp [ho]))

/-- C1: for an array of `MAX_CUSTOM_SCREENS` records and `i` in range, after
`disposeCustomScreen(i)` the records below `i` are unchanged, the record at
`j - 1` is the old record at `j` for every `i < j < MAX_CUSTOM_SCREENS`, and
the last record is all-zero; the array keeps its length. -/
theorem disposeCustomScreen_shifts_down (cfg : Config) (s : State) (i : Nat)
    (hlen : s.screenData.length = cfg.MAX_CUSTOM_SCREENS)
    (hmax : cfg.MAX_CUSTOM_SCREENS < 4294967296)
    (hi : i < cfg.MAX_CUSTOM_SCREENS) :
    (∀ j, j < i → (disposeCustomScreen cfg i s).screenData[j]? = s.screenData[j]?) ∧
    (∀ j, i < j → j < cfg.MAX_CUSTOM_SCREENS →
      (disposeCustomScreen cfg i s).screenData[j - 1]? = s.screenData[j]?) ∧
    (disposeCustomScreen cfg i s).screenData[cfg.MAX_CUSTOM_SCREENS - 1]?
      = some ⟨List.replicate cfg.LAYOUT_ID_LEN 0, List.replicate cfg.PERSISTENT_DATA_LEN 0⟩ ∧
    (disposeCustomScreen cfg i s).screenData.length = cfg.MAX_CUSTOM_SCREENS := by
  rw [disposeCustomScreen_screenData cfg s i hlen hmax hi]
  have htake : (s.screenData.take i).length = i := by simp; omega
  have hfront : (s.screenData.take i ++ s.screenData.drop (i + 1)).length
      = cfg.MAX_CUSTOM_SCREENS - 1 := by simp; omega
  refine ⟨?_, ?_, ?_, ?_⟩
  · intro j hj
    rw [List.append_assoc, List.getElem?_append_left (by omega)]
    exact List.getElem?_take_of_lt hj
  · intro j hij hj
    rw [List.getElem?_append_left (by omega), List.getElem?_append_right (by omega), htake,
      List.getElem?_drop]
    congr 1
    omega
  · rw [List.getElem?_append_right (by omega), hfront]
    simp [zeroRecord]
  · simp; omega

/-- Instance of C1 on four slots: deleting index 1 of `[A, B, C, D]` gives
`[A, C, D, empty]`. -/
theorem disposeCustomScreen_shifts_down_witness :
    (disposeCustomScreen cfg4 1 stateABCD).screenData = [recA, recC, recD, zeroRecord cfg4] ∧
    stateABCD.screenData.length = cfg4.MAX_CUSTOM_SCREENS ∧
    cfg4.MAX_CUSTOM_SCREENS < 4294967296 ∧ 1 < cfg4.MAX_CUSTOM_SCREENS ∧
    ((∀ j, j < 1 → (disposeCustomScreen cfg4 1 stateABCD).screenData[j]?
        = stateABCD.screenData[j]?) ∧
     (∀ j, 1 < j → j < cfg4.MAX_CUSTOM_SCREENS →
        (disposeCustomScreen cfg4 1 stateABCD).screenData[j - 1]? = stateABCD.screenData[j]?) ∧
     (disposeCustomScreen cfg4 1 stateABCD).screenData[cfg4.MAX_CUSTOM_SCREENS - 1]?
        = some ⟨List.replicate cfg4.LAYOUT_ID_LEN 0, List.replicate cfg4.PERSISTENT_DATA_LEN 0⟩ ∧
     (disposeCustomScreen cfg4 1 stateABCD).screenData.length = cfg4.MAX_CUSTOM_SCREENS) :=
  ⟨by decide, by decide, by decide, by decide,
    disposeCustomScreen_shifts_down cfg4 stateABCD 1 (by decide) (by decide) (by decide)⟩

/-- C7: for `idx >= MAX_CUSTOM_SCREENS`, `disposeCustomScreen(idx)` changes
nothing: the record array, the live screens and the calls made are the same. -/
theorem disposeCustomScreen_out_of_range (cfg : Config) (s : State) (idx : Nat)
    (h : idx ≥ cfg.MAX_CUSTOM_SCREENS) :
    disposeCustomScreen cfg idx s = s := by
  unfold disposeCustomScreen
  rw [if_pos h]

/-- Instance of C7: index 4 on four slots. -/
theorem disposeCustomScreen_out_of_range_witness :
    4 ≥ cfg4.MAX_CUSTOM_SCREENS ∧ disposeCustomScreen cfg4 4 stateABCD = stateABCD :=
  ⟨by decide, disposeCustomScreen_out_of_range cfg4 stateABCD 4 (by decide)⟩

/-! ## Properties of `createCustomScreen` -/

/-- C2: `createCustomScreen` called with a null factory, or with an index
`>= MAX_CUSTOM_SCREENS`, returns `nullptr` and leaves the state as it was:
live screens, records and the list of calls made (no factory call, no
teardown). -/
theorem createCustomScreen_rejected (cfg : Config) (factory : Option LayoutFactory)
    (customScreenIndex : Nat) (s : State)
    (h : factory = none ∨ customScreenIndex ≥ cfg.MAX_CUSTOM_SCREENS) :
    createCustomScreen cfg factory customScreenIndex s = (none, s) := by
  unfold createCustomScreen
  cases factory with
  | none => rfl
  | some f =>
    rcases h with h | h
    · cases h
    · simp only [if_pos h]

/-- Instance of C2: a null factory on slot 1, and factory `"grid"` on index 4 of four slots. -/
theorem createCustomScreen_rejected_witness :
    createCustomScreen cfg4 none 1 stateABCD = (none, stateABCD) ∧
    createCustomScreen cfg4 (some gridFactory) 4 stateABCD = (none, stateABCD) :=
  ⟨createCustomScreen_rejected cfg4 none 1 stateABCD (Or.inl rfl),
   createCustomScreen_rejected cfg4 (some gridFactory) 4 stateABCD (Or.inr (by decide))⟩

/-- C3: when `createCustomScreen(F, i)` returns a screen for an in-range `i`,
that screen is what `F.create` returned for slot `i`'s configuration block, it
is slot `i`'s live screen afterwards, slot `i`'s identifier field holds
`F.getId()` cut at the size of the field (padded with `0` bytes when shorter),
and the live screen and record of every other slot are unchanged. -/
theorem createCustomScreen_success (cfg : Config) (F : LayoutFactory) (i : Nat)
    (s s' : State) (screen : LayoutPtr)
    (hwf : s.WF cfg) (hi : i < cfg.MAX_CUSTOM_SCREENS)
    (h : createCustomScreen cfg (some F) i s = (some screen, s')) :
    (∃ r, s.screenData[i]? = some r ∧ (F.create r.layoutData).1 = some screen) ∧
    s'.customScreens[i]? = some (some screen) ∧
    (∃ r', s'.screenData[i]? = some r' ∧
      r'.LayoutId = (cstr F.getId).take cfg.LAYOUT_ID_LEN ++
        List.replicate (cfg.LAYOUT_ID_LEN - (cstr F.getId).length) 0) ∧
    (∀ j, j ≠ i → s'.customScreens[j]? = s.customScreens[j]? ∧
      s'.screenData[j]? = s.screenData[j]?) := by
  obtain ⟨hcs, hsd⟩ := hwf
  unfold createCustomScreen at h
  simp only [ge_iff_le, if_neg (Nat.not_le.mpr hi)] at h
  have hget : s.screenData[i]? = some (s.screenData.getD i default) := by
    rw [List.getD_eq_getElem?_getD, List.getElem?_eq_getElem (by omega)]
    rfl
  cases hr : (F.create (s.screenData.getD i default).layoutData).1 with
  | none =>
    rw [hr] at h
    simp at h
  | some scr =>
    rw [hr] at h
    simp only [Prod.mk.injEq, Option.some.injEq] at h
    obtain ⟨h1, h2⟩ := h
    subst h1
    subst h2
    refine ⟨⟨_, hget, hr⟩, ?_,
      ⟨⟨strncpy F.getId cfg.LAYOUT_ID_LEN,
        (F.create (s.screenData.getD i default).layoutData).2⟩, ?_, ?_⟩, ?_⟩
    · simp only [List.getElem?_set_self (by omega : i < s.customScreens.length)]
    · simp only [List.getElem?_set_self (by omega : i < s.screenData.length)]
    · exact strncpy_eq _ _
    · intro j hj
      constructor
      · simp only [List.getElem?_set_ne (Ne.symm hj)]
      · simp only [List.getElem?_set_ne (Ne.symm hj)]

/-- Instance of C3: factory `"grid"` put in slot 1 of `[A, B, C, D]`; the old
screen of the slot is torn down, the identifier `"grid"` fills the 4-byte field. -/
theorem createCustomScreen_success_witness :
    stateABCD.WF cfg4 ∧ 1 < cfg4.MAX_CUSTOM_SCREENS ∧
    createCustomScreen cfg4 (some gridFactory) 1 stateABCD = (some ⟨200⟩, stateAGCD) ∧
    ((∃ r, stateABCD.screenData[1]? = some r ∧
        (gridFactory.create r.layoutData).1 = some ⟨200⟩) ∧
     stateAGCD.customScreens[1]? = some (some ⟨200⟩) ∧
     (∃ r', stateAGCD.screenData[1]? = some r' ∧
        r'.LayoutId = (cstr gridFactory.getId).take cfg4.LAYOUT_ID_LEN ++
          List.replicate (cfg4.LAYOUT_ID_LEN - (cstr gridFactory.getId).length) 0) ∧
     (∀ j, j ≠ 1 → stateAGCD.customScreens[j]? = stateABCD.customScreens[j]? ∧
        stateAGCD.screenData[j]? = stateABCD.screenData[j]?)) :=
  ⟨by decide, by decide, by decide,
    createCustomScreen_success cfg4 gridFactory 1 stateABCD stateAGCD ⟨200⟩
      (by decide) (by decide) (by decide)⟩

/-! ## Properties of the registry -/

/-- C4: after any sequence `fs` of `registerLayout` calls, `getLayoutFactory(name)`
returns `F` exactly when `F` is the earliest factory of the sequence whose
identifier has the bytes of `name`; it returns `nullptr` exactly when no
registered factory has that identifier; and registering one more factory does
not change what a resolving name resolves to. -/
theorem getLayoutFactory_first_match (fs : List LayoutFactory) (name : List Nat) :
    (∀ F, getLayoutFactory (registered fs) name = some F ↔
      ∃ pre post, fs = pre ++ F :: post ∧ cstr F.getId = cstr name ∧
        ∀ G ∈ pre, cstr G.getId ≠ cstr name) ∧
    (getLayoutFactory (registered fs) name = none ↔
      ∀ G ∈ registered fs, cstr G.getId ≠ cstr name) ∧
    (∀ F G, getLayoutFactory (registered fs) name = some F →
      getLayoutFactory (registerLayout (registered fs) G) name = some F) := by
  rw [registered_eq]
  refine ⟨fun F => getLayoutFactory_eq_some_iff fs name F,
    getLayoutFactory_eq_none_iff fs name, ?_⟩
  intro F G h
  obtain ⟨pre, post, hl, hid, hpre⟩ := (getLayoutFactory_eq_some_iff fs name F).mp h
  exact (getLayoutFactory_eq_some_iff _ name F).mpr
    ⟨pre, post ++ [G], by simp [registerLayout, hl], hid, hpre⟩

/-- Instance of C4: with `"grid"`, `"tabs"` and a second `"grid"` registered in
this order, the name `"grid"` resolves to the first factory, before and after
the second one is registered, and `"unknown"` resolves to `nullptr`. -/
theorem getLayoutFactory_first_match_witness :
    getLayoutFactory (registered [gridFactory, tabsFactory]) gridFactory.getId
      = some gridFactory ∧
    getLayoutFactory (registerLayout (registered [gridFactory, tabsFactory]) gridClone)
      gridFactory.getId = some gridFactory ∧
    getLayoutFactory (registered [gridFactory, tabsFactory]) unknownName = none :=
  ⟨rfl,
   (getLayoutFactory_first_match [gridFactory, tabsFactory] gridFactory.getId).2.2
     gridFactory gridClone rfl,
   rfl⟩

/-- C5, as stated, fails: with two factories of identifier `"grid"` registered,
looking up the identifier of the second one returns the first one, a different
factory. -/
theorem getLayoutFactory_registered_counterexample :
    gridClone ∈ registered [gridFactory, gridClone] ∧
    getLayoutFactory (registered [gridFactory, gridClone]) gridClone.getId = some gridFactory ∧
    getLayoutFactory (registered [gridFactory, gridClone]) gridClone.getId ≠ some gridClone := by
  refine ⟨by simp [registered, registerLayout], rfl, ?_⟩
  intro h
  have h2 : gridFactory = gridClone := Option.some.inj h
  have h3 : (gridFactory.load []).1 = (gridClone.load []).1 := by rw [h2]
  exact absurd h3 (by decide)

/-- C5, amended: after any sequence `fs` of `registerLayout` calls, looking up
the identifier of a factory `F` returns `F` itself when no factory registered
before `F` has the same identifier; hence for every registered factory when
the identifiers are pairwise different; and a name equal to no registered
identifier resolves to `nullptr`. -/
theorem getLayoutFactory_registered (fs : List LayoutFactory) :
    (∀ pre F post, fs = pre ++ F :: post → (∀ G ∈ pre, cstr G.getId ≠ cstr F.getId) →
      getLayoutFactory (registered fs) F.getId = some F) ∧
    (fs.Pairwise (fun a b => cstr a.getId ≠ cstr b.getId) →
      ∀ F ∈ registered fs, getLayoutFactory (registered fs) F.getId = some F) ∧
    (∀ name, (∀ G ∈ registered fs, cstr G.getId ≠ cstr name) →
      getLayoutFactory (registered fs) name = none) := by
  rw [registered_eq]
  have first : ∀ pre F post, fs = pre ++ F :: post →
      (∀ G ∈ pre, cstr G.getId ≠ cstr F.getId) → getLayoutFactory fs F.getId = some F :=
    fun pre F post hl hpre =>
      (getLayoutFactory_eq_some_iff fs F.getId F).mpr ⟨pre, post, hl, rfl, hpre⟩
  refine ⟨first, ?_, fun name h => (getLayoutFactory_eq_none_iff fs name).mpr h⟩
  intro hp F hF
  obtain ⟨pre, post, hl⟩ := List.append_of_mem hF
  refine first pre F post hl ?_
  rw [hl, List.pairwise_append] at hp
  intro G hG
  exact hp.2.2 G hG F (by simp)

/-- Instance of C5 amended: with `"grid"` and `"tabs"` registered, each
identifier resolves to its own factory and `"unknown"` to `nullptr`. -/
theorem getLayoutFactory_registered_witness :
    getLayoutFactory (registered [gridFactory, tabsFactory]) tabsFactory.getId
      = some tabsFactory ∧
    (∀ F ∈ registered [gridFactory, tabsFactory],
      getLayoutFactory (registered [gridFactory, tabsFactory]) F.getId = some F) ∧
    getLayoutFactory (registered [gridFactory, tabsFactory]) unknownName = none :=
  ⟨(getLayoutFactory_registered [gridFactory, tabsFactory]).1 [gridFactory] tabsFactory []
      rfl (by decide),
   (getLayoutFactory_registered [gridFactory, tabsFactory]).2.1 (by decide),
   (getLayoutFactory_registered [gridFactory, tabsFactory]).2.2 unknownName (by decide)⟩

/-- C6: `loadLayout(name, data)` returns `nullptr`, calls no factory and leaves
`data` as it is when no registered factory has the identifier `name`;
otherwise `getLayoutFactory(name)` resolves to a factory with that identifier
and `loadLayout` returns what the `load` of that factory returns for `data`,
after that single call. -/
theorem loadLayout_resolves (layouts : List LayoutFactory) (name data : List Nat) :
    ((∀ G ∈ layouts, cstr G.getId ≠ cstr name) →
      loadLayout layouts name data = (none, data, [])) ∧
    ((∃ G ∈ layouts, cstr G.getId = cstr name) →
      ∃ F, getLayoutFactory layouts name = some F ∧ cstr F.getId = cstr name) ∧
    (∀ F, getLayoutFactory layouts name = some F →
      loadLayout layouts name data
        = ((F.load data).1, (F.load data).2, [Effect.load F.getId data (F.load data).1])) := by
  refine ⟨?_, ?_, ?_⟩
  · intro h
    have := (getLayoutFactory_eq_none_iff layouts name).mpr h
    simp [loadLayout, this]
  · rintro ⟨G, hG, hid⟩
    cases hr : getLayoutFactory layouts name with
    | none => exact absurd hid ((getLayoutFactory_eq_none_iff layouts name).mp hr G hG)
    | some F =>
      obtain ⟨_, _, _, hF, _⟩ := (getLayoutFactory_eq_some_iff layouts name F).mp hr
      exact ⟨F, rfl, hF⟩
  · intro F h
    simp [loadLayout, h]

/-- Instance of C6: with `"grid"` and `"tabs"` registered, loading `"unknown"`
returns `nullptr` without any call, and loading `"tabs"` returns the screen
made by the `load` of the `"tabs"` factory. -/
theorem loadLayout_resolves_witness :
    loadLayout (registered [gridFactory, tabsFactory]) unknownName [7, 7] = (none, [7, 7], []) ∧
    loadLayout (registered [gridFactory, tabsFactory]) tabsFactory.getId [7, 7]
      = (some ⟨301⟩, [7, 7], [Effect.load tabsFactory.getId [7, 7] (some ⟨301⟩)]) :=
  ⟨(loadLayout_resolves (registered [gridFactory, tabsFactory]) unknownName [7, 7]).1
      (by decide),
   (loadLayout_resolves (registered [gridFactory, tabsFactory]) tabsFactory.getId [7, 7]).2.2
      tabsFactory rfl⟩

/-! ## Properties of `Layout::decorate` -/

/-- C8: two calls of `decorate()` in a row, the capability answers being the
same: the second call makes no call at all and returns the object as the
first call left it, so the cached mask is unchanged; the calls of the two
together are either none or the four setters, `adjustDecoration`,
`updateZones` and `invalidate`, once each. -/
theorem decorate_twice (l : Layout) :
    (l.decorate.1.decorate).2 = [] ∧
    (l.decorate.1.decorate).1 = l.decorate.1 ∧
    (l.decorate.1.decorate).1.decorationSettings = l.decorate.1.decorationSettings ∧
    (l.decorate.2 ++ (l.decorate.1.decorate).2 = [] ∨
     l.decorate.2 ++ (l.decorate.1.decorate).2 =
      [DecorationCall.setTopbarVisible l.hasTopbar,
       DecorationCall.setSlidersVisible l.hasSliders,
       DecorationCall.setTrimsVisible l.hasTrims,
       DecorationCall.setFlightModeVisible l.hasFlightMode,
       DecorationCall.adjustDecoration,
       DecorationCall.updateZones,
       DecorationCall.invalidate]) := by
  have hcached : checkSettings l.decorate.1 = l.decorate.1.decorationSettings := by
    unfold Layout.decorate
    split
    · assumption
    · rfl
  have hsecond : l.decorate.1.decorate = (l.decorate.1, []) := by
    rw [Layout.decorate.eq_1 l.decorate.1, if_pos hcached]
  rw [hsecond]
  refine ⟨rfl, rfl, rfl, ?_⟩
  unfold Layout.decorate
  split
  · exact Or.inl rfl
  · exact Or.inr rfl

/-- Instance of C8: a layout with top bar and trims and a cached mask of 0;
the first call makes the seven calls and caches 5, the second makes none. -/
theorem decorate_twice_witness :
    (Layout.decorate ⟨true, false, true, false, 0⟩).2.length = 7 ∧
    ((Layout.decorate ⟨true, false, true, false, 0⟩).1.decorate).2 = [] ∧
    ((Layout.decorate ⟨true, false, true, false, 0⟩).1.decorate).1
      = ⟨true, false, true, false, 5⟩ :=
  ⟨by decide, (decorate_twice ⟨true, false, true, false, 0⟩).1,
   (decorate_twice ⟨true, false, true, false, 0⟩).2.1.trans (by decide)⟩

/-- C9: after `decorate()` the cached `decorationSettings` is the mask with bit
0 = `hasTopbar`, bit 1 = `hasSliders`, bit 2 = `hasTrims`, bit 3 =
`hasFlightMode`, whatever the cached value was before; it is below 16. -/
theorem decorate_mask (l : Layout) :
    l.decorate.1.decorationSettings =
      (if l.hasTopbar then 1 else 0) + (if l.hasSliders then 2 else 0) +
      (if l.hasTrims then 4 else 0) + (if l.hasFlightMode then 8 else 0) ∧
    l.decorate.1.decorationSettings.testBit 0 = l.hasTopbar ∧
    l.decorate.1.decorationSettings.testBit 1 = l.hasSliders ∧
    l.decorate.1.decorationSettings.testBit 2 = l.hasTrims ∧
    l.decorate.1.decorationSettings.testBit 3 = l.hasFlightMode ∧
    l.decorate.1.decorationSettings < 16 := by
  have hcached : l.decorate.1.decorationSettings = checkSettings l := by
    unfold Layout.decorate
    split
    · rename_i h
      exact h.symm
    · rfl
  rw [hcached]
  exact ⟨checkSettings_eq l, checkSettings_bits l⟩

/-- Instance of C9: capabilities (topbar, no sliders, trims, no flight mode)
give the cached mask binary `0101`, from a cached value of 0, of 5 and of 255. -/
theorem decorate_mask_witness :
    (Layout.decorate ⟨true, false, true, false, 0⟩).1.decorationSettings = 5 ∧
    (Layout.decorate ⟨true, false, true, false, 5⟩).1.decorationSettings = 5 ∧
    (Layout.decorate ⟨true, false, true, false, 255⟩).1.decorationSettings = 5 :=
  ⟨(decorate_mask ⟨true, false, true, false, 0⟩).1,
   (decorate_mask ⟨true, false, true, false, 5⟩).1,
   (decorate_mask ⟨true, false, true, false, 255⟩).1⟩

/-! ## Properties of `loadDefaultLayout` -/

/-- C10: when slot 0 holds a live screen, or when no default factory is
configured, `loadDefaultLayout()` leaves the state as it was: live screens,
records (identifier and configuration block of slot 0 included) and the list
of calls made, so no `create` and no `attach`. -/
theorem loadDefaultLayout_keeps (defaultLayout : Option LayoutFactory) (s : State)
    (h : (∃ screen, s.customScreens[0]? = some (some screen)) ∨ defaultLayout = none) :
    loadDefaultLayout defaultLayout s = s := by
  unfold loadDefaultLayout
  rcases h with ⟨screen, h⟩ | h
  · have : s.customScreens.getD 0 none = some screen := by
      rw [List.getD_eq_getElem?_getD, h]
      rfl
    rw [this]
  · subst h
    cases s.customScreens.getD 0 none <;> rfl

/-- Instance of C10: slot 0 of `[A, B, C, D]` is live and `"grid"` is the
default factory; and slot 0 is empty with no default factory. -/
theorem loadDefaultLayout_keeps_witness :
    stateABCD.customScreens[0]? = some (some ⟨100⟩) ∧
    loadDefaultLayout (some gridFactory) stateABCD = stateABCD ∧
    stateEmpty.customScreens[0]? = some none ∧
    loadDefaultLayout none stateEmpty = stateEmpty :=
  ⟨by decide,
   loadDefaultLayout_keeps (some gridFactory) stateABCD (Or.inl ⟨⟨100⟩, by decide⟩),
   by decide,
   loadDefaultLayout_keeps none stateEmpty (Or.inr rfl)⟩

/-! ## Identifier copies -/

/-- C11 fails on `loadDefaultLayout`: with an identifier field of 4 bytes and
the default factory `"grid"`, the `strcpy` writes 5 bytes; the configuration
block of slot 0, `[1, 1]` before the call, is `[0, 1]` when `create` receives
it and afterwards.  On the same input `createCustomScreen` writes 4 bytes and
leaves the block as it was. -/
theorem loadDefaultLayout_strcpy_overflow :
    (stateEmpty.screenData.getD 0 default).LayoutId.length = 4 ∧
    (strcpy gridFactory.getId).length = 5 ∧
    (stateEmpty.screenData.getD 0 default).layoutData = [1, 1] ∧
    loadDefaultLayout (some gridFactory) stateEmpty = stateDefaultGrid ∧
    (stateDefaultGrid.screenData.getD 0 default).layoutData = [0, 1] ∧
    ((createCustomScreen cfg4 (some gridFactory) 0 stateEmpty).2.screenData.getD 0 default)
      = ⟨[103, 114, 105, 100], [1, 1]⟩ := by
  refine ⟨by decide, by decide, by decide, by decide, by decide, by decide⟩

/-! ## Properties of `disposeCustomScreen` on the live screens -/

/-- C17: for every state and every index, in range or not,
`disposeCustomScreen(idx)` leaves every live-screen reference as it was and
makes no call (no detach, no free); only the record array can differ. -/
theorem disposeCustomScreen_keeps_screens (cfg : Config) (idx : Nat) (s : State) :
    (disposeCustomScreen cfg idx s).customScreens = s.customScreens ∧
    (∀ i : Nat, (disposeCustomScreen cfg idx s).customScreens[i]? = s.customScreens[i]?) ∧
    (disposeCustomScreen cfg idx s).trace = s.trace := by
  unfold disposeCustomScreen
  split
  · exact ⟨rfl, fun _ => rfl, rfl⟩
  · exact ⟨rfl, fun _ => rfl, rfl⟩

/-- Instance of C17: deleting index 1 of `[A, B, C, D]` changes the records and
keeps the two live screens in slots 0 and 1. -/
theorem disposeCustomScreen_keeps_screens_witness :
    (disposeCustomScreen cfg4 1 stateABCD).customScreens = [some ⟨100⟩, some ⟨101⟩, none, none] ∧
    (disposeCustomScreen cfg4 1 stateABCD).trace = [] ∧
    (disposeCustomScreen cfg4 1 stateABCD).screenData ≠ stateABCD.screenData :=
  ⟨(disposeCustomScreen_keeps_screens cfg4 1 stateABCD).1,
   (disposeCustomScreen_keeps_screens cfg4 1 stateABCD).2.2, by decide⟩

/-! ## Properties of `deleteCustomScreens` -/

/-- C13, as stated, fails: when two slots hold the same screen,
`deleteCustomScreens()` requests deferred teardown of that screen twice, once
for each of the two slots. -/
theorem deleteCustomScreens_shared_counterexample :
    stateShared.customScreens[0]? = some (some ⟨100⟩) ∧
    stateShared.customScreens[1]? = some (some ⟨100⟩) ∧
    (deleteCustomScreens stateShared).trace =
      [Effect.deleteLater ⟨100⟩ true true, Effect.deleteLater ⟨100⟩ true true] ∧
    (deleteCustomScreens stateShared).trace.count (Effect.deleteLater ⟨100⟩ true true) ≠ 1 := by
  refine ⟨by decide, by decide, by decide, by decide⟩

/-- C13, amended: after `deleteCustomScreens()` every slot's live-screen
reference is empty, the record array is unchanged, and the calls added are
exactly one `deleteLater()` per slot that was live, in slot order: every call
added is a request for a screen that was live, the number of requests for a
screen is the number of slots that held it, and it is exactly one for each
live screen when no screen is held by two slots. -/
theorem deleteCustomScreens_clears (s : State) :
    (deleteCustomScreens s).customScreens = List.replicate s.customScreens.length none ∧
    (∀ i : Nat, i < s.customScreens.length → (deleteCustomScreens s).customScreens[i]? = some none) ∧
    (deleteCustomScreens s).screenData = s.screenData ∧
    (deleteCustomScreens s).trace =
      s.trace ++ (s.customScreens.filterMap id).map (fun p => Effect.deleteLater p true true) ∧
    (∀ e ∈ (s.customScreens.filterMap id).map (fun q => Effect.deleteLater q true true),
      ∃ p, some p ∈ s.customScreens ∧ e = Effect.deleteLater p true true) ∧
    (∀ p, ((s.customScreens.filterMap id).map (fun q => Effect.deleteLater q true true)).count
        (Effect.deleteLater p true true) = s.customScreens.count (some p)) ∧
    ((s.customScreens.filterMap id).Nodup →
      ∀ p, some p ∈ s.customScreens →
        ((s.customScreens.filterMap id).map (fun q => Effect.deleteLater q true true)).count
          (Effect.deleteLater p true true) = 1) := by
  have h : deleteCustomScreens s =
      { s with
        customScreens := List.replicate s.customScreens.length none
        trace := s.trace ++
          (s.customScreens.filterMap id).map (fun p => Effect.deleteLater p true true) } := by
    unfold deleteCustomScreens
    rw [deleteScreensLoop_eq]
  rw [h]
  refine ⟨rfl, ?_, rfl, rfl, ?_, fun p => count_deleteLater s.customScreens p, ?_⟩
  · intro i hi
    simp [List.getElem?_replicate, hi]
  · intro e he
    obtain ⟨p, hp, hpe⟩ := List.mem_map.mp he
    obtain ⟨x, hx, hxp⟩ := List.mem_filterMap.mp hp
    have hxs : x = some p := hxp
    exact ⟨p, hxs ▸ hx, hpe.symm⟩
  · intro hnodup p hp
    have hmem : p ∈ s.customScreens.filterMap id :=
      List.mem_filterMap.mpr ⟨some p, hp, rfl⟩
    have h1 := List.count_eq_one_of_mem hnodup hmem
    have hinj : Function.Injective (fun q : LayoutPtr => Effect.deleteLater q true true) := by
      intro a b hab
      cases hab
      rfl
    have h2 := List.count_map_of_injective (s.customScreens.filterMap id) _ hinj p
    exact h2.trans h1

/-- Instance of C13 amended: the two live screens of `[A, B, C, D]`, which are
different, get one request each, all four slots end empty and the records are
the same. -/
theorem deleteCustomScreens_clears_witness :
    (stateABCD.customScreens.filterMap id).Nodup ∧
    (deleteCustomScreens stateABCD).customScreens = [none, none, none, none] ∧
    (deleteCustomScreens stateABCD).screenData = [recA, recB, recC, recD] ∧
    (deleteCustomScreens stateABCD).trace =
      [Effect.deleteLater ⟨100⟩ true true, Effect.deleteLater ⟨101⟩ true true] ∧
    ((stateABCD.customScreens.filterMap id).map (fun q => Effect.deleteLater q true true)).count
      (Effect.deleteLater ⟨100⟩ true true) = 1 :=
  ⟨by decide, (deleteCustomScreens_clears stateABCD).1,
   (deleteCustomScreens_clears stateABCD).2.2.1,
   (deleteCustomScreens_clears stateABCD).2.2.2.1,
   (deleteCustomScreens_clears stateABCD).2.2.2.2.2.2 (by decide) ⟨100⟩ (by decide)⟩

/-! ## Calls made by `Layout::decorate` -/

/-- C15: when the freshly computed mask differs from the cached one, one call
of `decorate()` makes exactly these calls, in this order: the four setters,
each once with the answer of its capability query, which is the corresponding
bit of the mask now cached, then `adjustDecoration`, `updateZones`,
`invalidate`. -/
theorem decorate_calls (l : Layout) (h : checkSettings l ≠ l.decorationSettings) :
    l.decorate.2 =
      [DecorationCall.setTopbarVisible l.hasTopbar,
       DecorationCall.setSlidersVisible l.hasSliders,
       DecorationCall.setTrimsVisible l.hasTrims,
       DecorationCall.setFlightModeVisible l.hasFlightMode,
       DecorationCall.adjustDecoration,
       DecorationCall.updateZones,
       DecorationCall.invalidate] ∧
    l.decorate.1.decorationSettings = checkSettings l ∧
    l.hasTopbar = l.decorate.1.decorationSettings.testBit 0 ∧
    l.hasSliders = l.decorate.1.decorationSettings.testBit 1 ∧
    l.hasTrims = l.decorate.1.decorationSettings.testBit 2 ∧
    l.hasFlightMode = l.decorate.1.decorationSettings.testBit 3 := by
  have hd : l.decorate = ({ l with decorationSettings := checkSettings l },
      [DecorationCall.setTopbarVisible l.hasTopbar,
       DecorationCall.setSlidersVisible l.hasSliders,
       DecorationCall.setTrimsVisible l.hasTrims,
       DecorationCall.setFlightModeVisible l.hasFlightMode,
       DecorationCall.adjustDecoration,
       DecorationCall.updateZones,
       DecorationCall.invalidate]) := by
    rw [Layout.decorate.eq_1 l, if_neg h]
  rw [hd]
  have hb := checkSettings_bits l
  exact ⟨rfl, rfl, hb.1.symm, hb.2.1.symm, hb.2.2.1.symm, hb.2.2.2.1.symm⟩

/-- Instance of C15: top bar and trims, cached mask 0. -/
theorem decorate_calls_witness :
    checkSettings ⟨true, false, true, false, 0⟩ ≠ 0 ∧
    (Layout.decorate ⟨true, false, true, false, 0⟩).2 =
      [DecorationCall.setTopbarVisible true,
       DecorationCall.setSlidersVisible false,
       DecorationCall.setTrimsVisible true,
       DecorationCall.setFlightModeVisible false,
       DecorationCall.adjustDecoration,
       DecorationCall.updateZones,
       DecorationCall.invalidate] :=
  ⟨by decide, (decorate_calls ⟨true, false, true, false, 0⟩ (by decide)).1⟩

/-! ## Order of teardown, free and creation -/

/-- C16: `createCustomScreen` on an in-range slot that holds a screen `old`
makes exactly these calls, in this order: `old->deleteLater(true, false)`,
`delete old`, then the factory's `create`; so every `delete` it makes comes
after a `deleteLater` on the same screen.  The calls `deleteCustomScreens`
makes are `deleteLater()` requests only: it frees no screen itself. -/
theorem teardown_before_free (cfg : Config) (F : LayoutFactory) (i : Nat) (s : State)
    (old : LayoutPtr) (hi : i < cfg.MAX_CUSTOM_SCREENS)
    (hold : s.customScreens[i]? = some (some old)) :
    (createCustomScreen cfg (some F) i s).2.trace =
      s.trace ++
        [Effect.deleteLater old true false, Effect.delete old,
         Effect.create F.getId (s.screenData.getD i default).layoutData
          (F.create (s.screenData.getD i default).layoutData).1] ∧
    (∀ pre p post,
      [Effect.deleteLater old true false, Effect.delete old,
         Effect.create F.getId (s.screenData.getD i default).layoutData
          (F.create (s.screenData.getD i default).layoutData).1] = pre ++ Effect.delete p :: post →
      Effect.deleteLater p true false ∈ pre) ∧
    (∃ added, (deleteCustomScreens s).trace = s.trace ++ added ∧
      (∀ e ∈ added, ∃ p, e = Effect.deleteLater p true true) ∧
      ∀ p, Effect.delete p ∉ added) := by
  refine ⟨?_, ?_, ?_⟩
  · rw [createCustomScreen_trace cfg F i s hi, getD_eq_of_getElem? _ _ _ _ hold]
    simp
  · intro pre p post h
    match pre, h with
    | [], h => simp at h
    | [a], h =>
      simp at h
      obtain ⟨h1, h2, _⟩ := h
      subst h1
      subst h2
      simp
    | [a, b], h => simp at h
    | a :: b :: c :: rest, h => simp at h
  · refine ⟨(s.customScreens.filterMap id).map (fun p => Effect.deleteLater p true true), ?_, ?_, ?_⟩
    · unfold deleteCustomScreens
      rw [deleteScreensLoop_eq]
    · intro e he
      obtain ⟨p, _, hp⟩ := List.mem_map.mp he
      exact ⟨p, hp.symm⟩
    · intro p hp
      obtain ⟨q, _, hq⟩ := List.mem_map.mp hp
      cases hq

/-- Instance of C16: factory `"grid"` replaces the screen of slot 1 of
`[A, B, C, D]`; tearing down `[A, B, C, D]` requests two deferred teardowns. -/
theorem teardown_before_free_witness :
    1 < cfg4.MAX_CUSTOM_SCREENS ∧ stateABCD.customScreens[1]? = some (some ⟨101⟩) ∧
    (createCustomScreen cfg4 (some gridFactory) 1 stateABCD).2.trace =
      [Effect.deleteLater ⟨101⟩ true false, Effect.delete ⟨101⟩,
       Effect.create gridFactory.getId [2, 2] (some ⟨200⟩)] :=
  ⟨by decide, by decide,
   (teardown_before_free cfg4 gridFactory 1 stateABCD ⟨101⟩ (by decide) (by decide)).1⟩

/-! ## `createCustomScreen` when the factory yields no screen -/

/-- C19: for an in-range slot `i` and a factory whose `create` yields no
screen for the slot's configuration block, `createCustomScreen(F, i)` returns
`nullptr`, slot `i` has no live screen afterwards, a screen that was live
there has been torn down (`deleteLater(true, false)` then `delete`, before
`create`), and the identifier field of slot `i` is as before. -/
theorem createCustomScreen_no_screen (cfg : Config) (F : LayoutFactory) (i : Nat) (s : State)
    (hwf : s.WF cfg) (hi : i < cfg.MAX_CUSTOM_SCREENS)
    (hnone : (F.create (s.screenData.getD i default).layoutData).1 = none) :
    (createCustomScreen cfg (some F) i s).1 = none ∧
    (createCustomScreen cfg (some F) i s).2.customScreens[i]? = some none ∧
    ((createCustomScreen cfg (some F) i s).2.screenData[i]?).map CustomScreenData.LayoutId
      = (s.screenData[i]?).map CustomScreenData.LayoutId ∧
    (∀ old, s.customScreens[i]? = some (some old) →
      (createCustomScreen cfg (some F) i s).2.trace =
        s.trace ++ [Effect.deleteLater old true false, Effect.delete old,
          Effect.create F.getId (s.screenData.getD i default).layoutData none]) := by
  obtain ⟨hcs, hsd⟩ := hwf
  have htrace := createCustomScreen_trace cfg F i s hi
  refine ⟨?_, ?_, ?_, ?_⟩
  · unfold createCustomScreen
    simp only [ge_iff_le, if_neg (Nat.not_le.mpr hi), hnone]
  · unfold createCustomScreen
    simp only [ge_iff_le, if_neg (Nat.not_le.mpr hi), hnone]
    simp only [List.getElem?_set_self (by omega : i < s.customScreens.length)]
  · unfold createCustomScreen
    simp only [ge_iff_le, if_neg (Nat.not_le.mpr hi), hnone]
    simp only [List.getElem?_set_self (by omega : i < s.screenData.length)]
    rw [List.getD_eq_getElem?_getD, List.getElem?_eq_getElem (by omega)]
    rfl
  · intro old hold
    rw [htrace, getD_eq_of_getElem? _ _ _ _ hold, hnone]
    simp

/-- Instance of C19: factory `"tabs"`, whose `create` yields no screen, on
slot 1 of `[A, B, C, D]`: the old screen is torn down, the slot ends empty and
the record keeps the identifier `"B"`. -/
theorem createCustomScreen_no_screen_witness :
    stateABCD.WF cfg4 ∧ 1 < cfg4.MAX_CUSTOM_SCREENS ∧
    (tabsFactory.create (stateABCD.screenData.getD 1 default).layoutData).1 = none ∧
    createCustomScreen cfg4 (some tabsFactory) 1 stateABCD = (none, stateTabsFailed) ∧
    (createCustomScreen cfg4 (some tabsFactory) 1 stateABCD).2.customScreens[1]? = some none :=
  ⟨by decide, by decide, by decide, by decide,
   (createCustomScreen_no_screen cfg4 tabsFactory 1 stateABCD (by decide) (by decide)
      (by decide)).2.1⟩

/-! ## Properties of `loadCustomScreens` -/

/-- C18: let `F` be registered with no earlier registered factory of the same
identifier, its identifier being strictly shorter than the identifier field.
When `createCustomScreen(F, i)` returns a screen for an in-range `i`, the
identifier field of slot `i` holds the identifier of `F` with a terminator
inside the field, `getLayoutFactory` on the name read at that field returns
`F`, and a following `loadCustomScreens()` puts in slot `i` what `F.load`
returns for the slot's configuration block. -/
theorem createCustomScreen_roundtrip (cfg : Config) (pre post : List LayoutFactory)
    (F : LayoutFactory) (i : Nat) (s s' : State) (screen : LayoutPtr)
    (hwf : s.WF cfg) (hi : i < cfg.MAX_CUSTOM_SCREENS)
    (hfirst : ∀ G ∈ pre, cstr G.getId ≠ cstr F.getId)
    (hshort : (cstr F.getId).length < cfg.LAYOUT_ID_LEN)
    (h : createCustomScreen cfg (some F) i s = (some screen, s')) :
    ∃ r', s'.screenData[i]? = some r' ∧
      r'.LayoutId.length = cfg.LAYOUT_ID_LEN ∧
      0 ∈ r'.LayoutId ∧
      cstr r'.LayoutId = cstr F.getId ∧
      getLayoutFactory (registered (pre ++ F :: post)) (bytesFrom s'.screenData i) = some F ∧
      (loadCustomScreens cfg (registered (pre ++ F :: post)) s').customScreens[i]?
        = some (F.load r'.layoutData).1 := by
  obtain ⟨hcs, hsd⟩ := hwf
  have hr : (F.create (s.screenData.getD i default).layoutData).1 = some screen := by
    rw [← createCustomScreen_fst cfg F i s hi, h]
  rw [createCustomScreen_some cfg F i s screen hi hr] at h
  simp only [Prod.mk.injEq, true_and] at h
  subst h
  have hget : (s.screenData.set i
      ⟨strncpy F.getId cfg.LAYOUT_ID_LEN,
        (F.create (s.screenData.getD i default).layoutData).2⟩)[i]?
      = some ⟨strncpy F.getId cfg.LAYOUT_ID_LEN,
        (F.create (s.screenData.getD i default).layoutData).2⟩ :=
    List.getElem?_set_self (by omega)
  have hz : 0 ∈ strncpy F.getId cfg.LAYOUT_ID_LEN := zero_mem_strncpy _ _ hshort
  have hid : cstr (strncpy F.getId cfg.LAYOUT_ID_LEN) = cstr F.getId := by
    rw [cstr_strncpy, List.take_of_length_le (by omega)]
  have hname := cstr_bytesFrom _ i _ hget hz
  have hfind : getLayoutFactory (registered (pre ++ F :: post))
      (bytesFrom (s.screenData.set i
        ⟨strncpy F.getId cfg.LAYOUT_ID_LEN,
          (F.create (s.screenData.getD i default).layoutData).2⟩) i) = some F := by
    rw [registered_eq]
    refine (getLayoutFactory_eq_some_iff _ _ F).mpr ⟨pre, post, rfl, ?_, ?_⟩
    · rw [hname, hid]
    · intro G hG
      rw [hname, hid]
      exact hfirst G hG
  refine ⟨_, hget, strncpy_length _ _, hz, hid, hfind, ?_⟩
  refine (loadCustomScreens_slot cfg _ _ i hi ?_).trans ?_
  · show (s.customScreens.set i (some screen)).length = cfg.MAX_CUSTOM_SCREENS
    rw [List.length_set]
    exact hcs
  · simp only [slotLoad, loadLayout, hfind, getD_eq_of_getElem? _ _ _ _ hget]

/-- Instance of C18: factory `"tab"` (3 characters, field of 4 bytes),
registered after `"grid"`, put in slot 1 of `[A, B, C, D]`. -/
theorem createCustomScreen_roundtrip_witness :
    stateABCD.WF cfg4 ∧ 1 < cfg4.MAX_CUSTOM_SCREENS ∧
    (cstr tabFactory.getId).length < cfg4.LAYOUT_ID_LEN ∧
    createCustomScreen cfg4 (some tabFactory) 1 stateABCD = (some ⟨400⟩, stateATCD) ∧
    (∃ r', stateATCD.screenData[1]? = some r' ∧
      r'.LayoutId.length = cfg4.LAYOUT_ID_LEN ∧
      0 ∈ r'.LayoutId ∧
      cstr r'.LayoutId = cstr tabFactory.getId ∧
      getLayoutFactory (registered ([gridFactory] ++ tabFactory :: []))
        (bytesFrom stateATCD.screenData 1) = some tabFactory ∧
      (loadCustomScreens cfg4 (registered ([gridFactory] ++ tabFactory :: []))
        stateATCD).customScreens[1]? = some (tabFactory.load r'.layoutData).1) :=
  ⟨by decide, by decide, by decide, by decide,
   createCustomScreen_roundtrip cfg4 [gridFactory] [] tabFactory 1 stateABCD stateATCD ⟨400⟩
     (by decide) (by decide) (by decide) (by decide) (by decide)⟩

/-! ## The slot invariant and the operations of the slot array -/

/-- C12, as stated, fails on `disposeCustomScreen`: from two empty slots,
`loadCustomScreens()` loads slot 0 through the `"tabs"` factory and the
invariant holds; `disposeCustomScreen(0)` then moves record `"zzzz"` into slot
0 under the screen made by `"tabs"`, which stays where it was. -/
theorem slotInvariant_dispose_counterexample :
    SlotInvariant stateTwo ∧
    SlotInvariant (loadCustomScreens cfg2 [gridFactory, tabsFactory] stateTwo) ∧
    ¬ SlotInvariant
      (disposeCustomScreen cfg2 0 (loadCustomScreens cfg2 [gridFactory, tabsFactory] stateTwo)) := by
  refine ⟨by decide, by decide, by decide⟩

/-- C12, amended: on arrays of `MAX_CUSTOM_SCREENS` elements that satisfy the
slot invariant, the invariant holds again after `loadCustomScreens` (when
every identifier field holds a terminator), after `loadDefaultLayout` (when
the identifier of the default factory and its terminator fit the identifier
field of slot 0), after `createCustomScreen` (when the identifier of the
factory fits the identifier field) and after `deleteCustomScreens`; hence
after every sequence of these four operations, when the fields are terminated
at the start and the identifiers copied are shorter than the field.
Nothing is said of `disposeCustomScreen`. -/
theorem slotInvariant_preserved (cfg : Config) (layouts : List LayoutFactory)
    (defaultLayout : Option LayoutFactory) (s : State)
    (hwf : s.WF cfg) (hinv : SlotInvariant s) :
    ((∀ r ∈ s.screenData, 0 ∈ r.LayoutId) →
      SlotInvariant (loadCustomScreens cfg layouts s)) ∧
    ((∀ F r, defaultLayout = some F → s.screenData[0]? = some r →
        (cstr F.getId).length < r.LayoutId.length) →
      SlotInvariant (loadDefaultLayout defaultLayout s)) ∧
    (∀ factory i, (∀ F, factory = some F → (cstr F.getId).length ≤ cfg.LAYOUT_ID_LEN) →
      SlotInvariant (createCustomScreen cfg factory i s).2) ∧
    SlotInvariant (deleteCustomScreens s) ∧
    (∀ ops, s.FieldsOk cfg →
      (∀ F, defaultLayout = some F → (cstr F.getId).length < cfg.LAYOUT_ID_LEN) →
      (∀ op ∈ ops, shortOp cfg op) →
      SlotInvariant (runOps cfg layouts defaultLayout ops s)) :=
  ⟨fun hterm => slotInvariant_loadCustomScreens cfg layouts s hwf hterm,
   fun hfit => slotInvariant_loadDefaultLayout cfg defaultLayout s hwf hinv hfit,
   fun factory i hfit => slotInvariant_createCustomScreen cfg factory i s hwf hinv hfit,
   slotInvariant_deleteCustomScreens s,
   fun ops hok hdefault hshort =>
     (good_runOps cfg layouts defaultLayout ops s hwf hok hinv hdefault hshort).2.2⟩

/-- Instance of C12 amended: from two empty slots, with `"grid"` and `"tabs"`
registered and `"tab"` as default factory: load all, put `"tab"` in slot 1,
tear down all, load the default screen. -/
theorem slotInvariant_preserved_witness :
    stateTwo.WF cfg2 ∧ SlotInvariant stateTwo ∧ stateTwo.FieldsOk cfg2 ∧
    SlotInvariant (createCustomScreen cfg2 (some tabFactory) 1 stateTwo).2 ∧
    SlotInvariant
      (runOps cfg2 [gridFactory, tabsFactory] (some tabFactory)
        [SlotOp.loadCustomScreens, SlotOp.createCustomScreen (some tabFactory) 1,
         SlotOp.deleteCustomScreens, SlotOp.loadDefaultLayout] stateTwo) :=
  ⟨by decide, by decide, by decide,
   (slotInvariant_preserved cfg2 [gridFactory, tabsFactory] (some tabFactory) stateTwo
      (by decide) (by decide)).2.2.1 (some tabFactory) 1
      (fun F h => by cases h; decide),
   (slotInvariant_preserved cfg2 [gridFactory, tabsFactory] (some tabFactory) stateTwo
      (by decide) (by decide)).2.2.2.2 _ (by decide)
      (fun F h => by cases h; decide) (by decide)⟩

end EdgeTX
